import Mathlib

/-!
# Analysis.c: descriptive statistics, standardisation and ranking

A shallow embedding of the numerical core of `src/Analysis.c` together with
theorems about it.

Modelling conventions.

* C `float` values are elements of a linearly ordered field `α` (exact
  arithmetic, no rounding, no overflow).  Instantiating `α` with `ℚ` makes every
  definition executable.  Where rounding decides a property, `f_mean`,
  `f_standard_deviation` and `f_scale` are given a second time in binary32
  arithmetic (`f_mean_binary32` and so on).
* C arrays are total functions on indices (`Nat → α`, `Nat → Nat → α`); the
  globals `observation_number` and `variables_number` are passed as explicit
  arguments.  `data j i` is the C cell `data[j][i]`: row `j` is an observation,
  column `i` is a variable.
* A counted `for` loop whose body changes neither its counter nor its bound is
  `forLoop lo hi body`.
* The two things the program takes from outside exact field arithmetic are
  collected in `FloatOps`: the library function `sqrt`, and the value of a
  quotient whose divisor is zero (an infinity or a NaN in IEEE arithmetic, which
  is no real number; the model leaves it unspecified).
* A local variable that C reads before assigning it (`minimum` in
  `ranking_f_minimum`, `maximum` in `ranking_f_maximum`, `k` in the fill loop of
  `main`) enters as an extra argument holding its indeterminate value.
* A file is the list of its characters; a function that may stop the program
  through an error handler returns `Except ErrorKind`.
* Where C fixes no order between an increment and a read of the same variable
  (the argument list of the print loop), the order is an argument of the model.
-/

namespace Analysis

/-! ## Loops and arithmetic -/

/-- Run `body k`, `body (k+1)`, ... for `c` consecutive counter values. -/
def loopFrom {σ : Type} (body : Nat → σ → σ) : Nat → Nat → σ → σ
  | _, 0, s => s
  | k, c + 1, s => loopFrom body (k + 1) c (body k s)

/-- The C loop `for (k = lo; k < hi; k++) s = body k s`. -/
def forLoop {σ : Type} (lo hi : Nat) (body : Nat → σ → σ) (s : σ) : σ :=
  loopFrom body lo (hi - lo) s

/-- Operations that are not field operations: `sqrt` from the C library and the
result `divZero x` of dividing `x` by zero. -/
structure FloatOps (α : Type) where
  sqrt : α → α
  divZero : α → α

/-- The C quotient `x / y`: the field quotient when `y` is non-zero. -/
def FloatOps.div {α : Type} [LinearOrderedField α] (F : FloatOps α) (x y : α) : α :=
  if y = 0 then F.divZero x else x / y

/-- The assignment `d[j][i] = v` on a two-dimensional array. -/
def setCell {α : Type} (d : Nat → Nat → α) (j i : Nat) (v : α) : Nat → Nat → α :=
  fun j' i' => if j' = j ∧ i' = i then v else d j' i'

/-- The assignment `a[i] = v` on a one-dimensional array. -/
def setAt {β : Type} (a : Nat → β) (i : Nat) (v : β) : Nat → β :=
  fun k => if k = i then v else a k

section Model

variable {α : Type} [LinearOrderedField α]

/-! ## Descriptive statistics (lines 377-455) -/

/-- Source `f_minimum`: scan of column `i` starting from `data[0][i]`. -/
def f_minimum (observation_number : Nat) (data : Nat → Nat → α) (i : Nat) : α :=
  forLoop 1 observation_number
    (fun j minimum => if data j i < minimum then data j i else minimum) (data 0 i)

/-- Source `f_maximum`: scan of column `i` starting from `data[0][i]`. -/
def f_maximum (observation_number : Nat) (data : Nat → Nat → α) (i : Nat) : α :=
  forLoop 1 observation_number
    (fun j maximum => if data j i > maximum then data j i else maximum) (data 0 i)

/-- Source `f_mean`: `sum` of column `i` divided by `observation_number`. -/
def f_mean (F : FloatOps α) (observation_number : Nat) (data : Nat → Nat → α) (i : Nat) : α :=
  F.div (forLoop 0 observation_number (fun j sum => sum + data j i) 0) (observation_number : α)

/-- One comparison of the exchange sort inside `f_median`: when
`data_copy[j][i] < data_copy[k][i]` the two cells are exchanged through `temp`. -/
def f_median_exchange (i j k : Nat) (data_copy : Nat → Nat → α) : Nat → Nat → α :=
  if data_copy j i < data_copy k i then
    setCell (setCell data_copy j i (data_copy k i)) k i (data_copy j i)
  else data_copy

/-- The two nested loops of `f_median` (lines 417-425), acting on the buffer. -/
def f_median_sort (observation_number : Nat) (data_copy : Nat → Nat → α) (i : Nat) :
    Nat → Nat → α :=
  forLoop 0 (observation_number - 1)
    (fun j d => forLoop (j + 1) observation_number (fun k d => f_median_exchange i j k d) d)
    data_copy

/-- Source `f_median`: returns the median together with the buffer as the call
leaves it (the buffer is sorted in place). -/
def f_median (F : FloatOps α) (observation_number : Nat) (data_copy : Nat → Nat → α) (i : Nat) :
    α × (Nat → Nat → α) :=
  let d := f_median_sort observation_number data_copy i
  if observation_number % 2 = 0 then
    (F.div (d (observation_number / 2) i + d (observation_number / 2 - 1) i) 2, d)
  else
    (d (observation_number / 2) i, d)

/-- Source `f_standard_deviation`. -/
def f_standard_deviation (F : FloatOps α) (observation_number : Nat) (data : Nat → Nat → α)
    (mean_result : Nat → α) (i : Nat) : α :=
  F.sqrt (F.div
    (forLoop 0 observation_number (fun j sd => sd + (data j i - mean_result i) ^ 2) 0)
    (observation_number : α))

/-- Source `f_coeff_of_variation`. -/
def f_coeff_of_variation (F : FloatOps α) (mean_result sd_result : Nat → α) (i : Nat) : α :=
  |F.div (sd_result i) (mean_result i) * 100|

/-- Source `f_scale`. -/
def f_scale (F : FloatOps α) (data : Nat → Nat → α) (mean_result sd_result : Nat → α)
    (i j : Nat) : α :=
  F.div (data j i - mean_result i) (sd_result i)

/-! ## Ranking helpers (lines 457-498) -/

/-- Source `ranking_f_mean`: mean of row `i`. -/
def ranking_f_mean (F : FloatOps α) (variables_number : Nat) (data : Nat → Nat → α) (i : Nat) : α :=
  F.div (forLoop 0 variables_number (fun j sum => sum + data i j) 0) (variables_number : α)

/-- Source `ranking_f_minimum`.  The local `minimum` is read before it is ever
assigned; `minimum0` is the value it holds on entry. -/
def ranking_f_minimum (minimum0 : α) (observation_number : Nat) (ranking_mean_result : Nat → α) :
    α :=
  forLoop 0 observation_number
    (fun i minimum => if ranking_mean_result i < minimum then ranking_mean_result i else minimum)
    minimum0

/-- Source `ranking_f_maximum`.  The local `maximum` is read before it is ever
assigned; `maximum0` is the value it holds on entry. -/
def ranking_f_maximum (maximum0 : α) (observation_number : Nat) (ranking_mean_result : Nat → α) :
    α :=
  forLoop 0 observation_number
    (fun i maximum => if ranking_mean_result i > maximum then ranking_mean_result i else maximum)
    maximum0

/-- Source `ranking_f_index`. -/
def ranking_f_index (F : FloatOps α) (ranking_mean_result : Nat → α)
    (ranking_minimum_result ranking_maximum_result : α) (i : Nat) : α :=
  F.div (ranking_mean_result i - ranking_minimum_result)
    (ranking_maximum_result - ranking_minimum_result)

/-! ## The loops of `main` -/

/-- Lines 306-311: every cell of `data` in range is copied into `data_copy`
(whose previous content is `data_copy0`). -/
def main_data_copy (observation_number variables_number : Nat)
    (data data_copy0 : Nat → Nat → α) : Nat → Nat → α :=
  forLoop 0 variables_number
    (fun i c => forLoop 0 observation_number (fun j c => setCell c j i (data j i)) c)
    data_copy0

/-- The arrays the statistics loop of `main` reads and writes, and the
variables for which it wrote the note line (most recent first). -/
structure Stats (α : Type) where
  data : Nat → Nat → α
  data_copy : Nat → Nat → α
  min_result : Nat → α
  max_result : Nat → α
  mean_result : Nat → α
  median_result : Nat → α
  sd_result : Nat → α
  var_result : Nat → α
  coeff_of_var_result : Nat → α
  notes : List Nat

/-- Lines 338-340: column `i` of `data` is overwritten cell by cell with
`f_scale`. -/
def main_scale_column (F : FloatOps α) (observation_number : Nat)
    (mean_result sd_result : Nat → α) (i : Nat) (data : Nat → Nat → α) : Nat → Nat → α :=
  forLoop 0 observation_number
    (fun j d => setCell d j i (f_scale F d mean_result sd_result i j)) data

/-- Lines 325-340: the body of the statistics loop for variable `i`. -/
def main_variable (F : FloatOps α) (observation_number : Nat) (min_coeff : α) (i : Nat)
    (s : Stats α) : Stats α :=
  let min_result := setAt s.min_result i (f_minimum observation_number s.data i)
  let max_result := setAt s.max_result i (f_maximum observation_number s.data i)
  let mean_result := setAt s.mean_result i (f_mean F observation_number s.data i)
  let med := f_median F observation_number s.data_copy i
  let median_result := setAt s.median_result i med.1
  let sd_result :=
    setAt s.sd_result i (f_standard_deviation F observation_number s.data mean_result i)
  let var_result :=
    setAt s.var_result i (f_standard_deviation F observation_number s.data mean_result i ^ 2)
  let coeff_of_var_result :=
    setAt s.coeff_of_var_result i (f_coeff_of_variation F mean_result sd_result i)
  let notes := if coeff_of_var_result i < min_coeff then i :: s.notes else s.notes
  { data := main_scale_column F observation_number mean_result sd_result i s.data
    data_copy := med.2
    min_result := min_result
    max_result := max_result
    mean_result := mean_result
    median_result := median_result
    sd_result := sd_result
    var_result := var_result
    coeff_of_var_result := coeff_of_var_result
    notes := notes }

/-- Lines 323-341: the statistics and scaling loop over all variables. -/
def main_statistics (F : FloatOps α) (observation_number variables_number : Nat) (min_coeff : α)
    (s : Stats α) : Stats α :=
  forLoop 0 variables_number (fun i s => main_variable F observation_number min_coeff i s) s

/-- Lines 343-345: the raw mean of every observation (`ranking_mean_result0`
is the previous content of the array). -/
def main_ranking_mean (F : FloatOps α) (observation_number variables_number : Nat)
    (data : Nat → Nat → α) (ranking_mean_result0 : Nat → α) : Nat → α :=
  forLoop 0 observation_number
    (fun i r => setAt r i (ranking_f_mean F variables_number data i)) ranking_mean_result0

/-- Lines 347-349: the ranking index of every observation.  Each pass calls
`ranking_f_minimum` and `ranking_f_maximum` afresh; `minimum0 i` and
`maximum0 i` are the indeterminate values of their locals in pass `i`. -/
def main_ranking_index (F : FloatOps α) (minimum0 maximum0 : Nat → α) (observation_number : Nat)
    (ranking_mean_result ranking_index_result0 : Nat → α) : Nat → α :=
  forLoop 0 observation_number
    (fun i r => setAt r i
      (ranking_f_index F ranking_mean_result
        (ranking_f_minimum (minimum0 i) observation_number ranking_mean_result)
        (ranking_f_maximum (maximum0 i) observation_number ranking_mean_result) i))
    ranking_index_result0

/-- The two arrays the ranking sort of `main` rearranges. -/
structure Ranking (α : Type) where
  ranking_index_result : Nat → α
  observation : Nat → String

/-- Lines 353-361: when `ranking_index_result[j] > ranking_index_result[i]` the
two indices are exchanged through `temp` and the two labels through `temp2`. -/
def main_sort_exchange (i j : Nat) (r : Ranking α) : Ranking α :=
  if r.ranking_index_result j > r.ranking_index_result i then
    { ranking_index_result :=
        setAt (setAt r.ranking_index_result j (r.ranking_index_result i)) i
          (r.ranking_index_result j)
      observation := setAt (setAt r.observation j (r.observation i)) i (r.observation j) }
  else r

/-- Lines 351-363: the ranking sort loop of `main`. -/
def main_sort (observation_number : Nat) (r : Ranking α) : Ranking α :=
  forLoop 0 (observation_number - 1)
    (fun i r => forLoop (i + 1) observation_number (fun j r => main_sort_exchange i j r) r) r

/-- The `(ranking_index, label)` pairs at positions `0 .. observation_number-1`. -/
def Ranking.pairs (observation_number : Nat) (r : Ranking α) : List (α × String) :=
  (List.range observation_number).map (fun k => (r.ranking_index_result k, r.observation k))

end Model

/-! ## Concrete inputs -/

/-- Three observations with ranking indices `0, 1, 1/2` and labels `A, B, C`. -/
def rankingExample : Ranking ℚ :=
  { ranking_index_result := fun k => [0, 1, 1 / 2].getD k 0
    observation := fun k => ["A", "B", "C"].getD k "" }

/-- The matrix of two observations and two variables with rows `[1, 2]` and
`[2, 1]` (data file `1 2 2 1`). -/
def equalMeansData (α : Type) [LinearOrderedField α] : Nat → Nat → α :=
  fun j i => ([[1, 2], [2, 1]].getD j []).getD i 0

/-- Raw means of two observations that coincide (both are `0`); they are the raw
means `main` computes for `equalMeansData`. -/
def equalMeans (α : Type) [LinearOrderedField α] : Nat → α := fun _ => 0

/-- The matrix of two observations and one variable with rows `[1]` and `[2]`
(data file `1 2`). -/
def twoMeansData (α : Type) [LinearOrderedField α] : Nat → Nat → α :=
  fun j i => ([[1], [2]].getD j []).getD i 0

/-- Raw means `-1, 1` of two observations; they are the raw means `main`
computes for `twoMeansData`. -/
def twoMeans (α : Type) [LinearOrderedField α] : Nat → α := fun k => [-1, 1].getD k 0

/-- The matrix of the scenario with observations `A, B, C` and variables
`X, Y`: rows `[1, 10]`, `[2, 20]`, `[3, 15]`. -/
def scenarioData (α : Type) [LinearOrderedField α] : Nat → Nat → α :=
  fun j i => ([[1, 10], [2, 20], [3, 15]].getD j []).getD i 0

/-- The library `sqrt` is the exact non-negative square root on non-negative
arguments. -/
def FloatOps.ExactSqrt {α : Type} [LinearOrderedField α] (F : FloatOps α) : Prop :=
  ∀ x, 0 ≤ x → 0 ≤ F.sqrt x ∧ F.sqrt x * F.sqrt x = x

/-- The state in which the statistics loop of `main` starts on the scenario
matrix: `data_copy` is a copy of `data`, the result arrays hold `0` and no note
has been written. -/
def scenarioStats (α : Type) [LinearOrderedField α] : Stats α :=
  { data := scenarioData α
    data_copy := scenarioData α
    min_result := fun _ => 0
    max_result := fun _ => 0
    mean_result := fun _ => 0
    median_result := fun _ => 0
    sd_result := fun _ => 0
    var_result := fun _ => 0
    coeff_of_var_result := fun _ => 0
    notes := [] }

/-- The operations with a given library square root; a quotient by zero is
given the value `0`. -/
def opsOf {α : Type} [LinearOrderedField α] (sqrt : α → α) : FloatOps α :=
  { sqrt := sqrt
    divZero := fun _ => 0 }

/-! ## Input checks, filling and printing (lines 286-304, 365-368, 500-541) -/

/-- The errors the program reports before it stops with `exit(1)`, one per
error handler of the source. -/
inductive ErrorKind where
  | existence
  | duplicateFile
  | data
  | emptyFile
  | dataFormat
  | range
  deriving DecidableEq

/-- The newline mark `\n`. -/
def newline : Char := Char.ofNat 10

/-- The `while` loop of `counter`: `rest` is what `getc` has still to deliver
and `no` the count so far.  Each pass reads one character and increments `no`
when it is a newline; the pass that reads `EOF` ends the loop. -/
def counter_loop : List Char → Nat → Nat
  | [], no => no
  | c :: rest, no => counter_loop rest (if c = newline then no + 1 else no)

/-- Source `counter` on the characters of a file.  The first `getc` is tested
for `EOF` only (`errhl_no_data` stops the program); the characters after it
are read and tested by the loop.  The model covers files without the byte that
the `char` variable confuses with `EOF`, and counts below `2^31`. -/
def counter (file : List Char) : Except ErrorKind Nat :=
  match file with
  | [] => Except.error ErrorKind.emptyFile
  | _ :: rest => Except.ok (counter_loop rest 1)

/-- Source `errhl_incorrect_data` on the three global counts. -/
def errhl_incorrect_data (observation_number variables_number data_number : Nat) :
    Except ErrorKind Unit :=
  if observation_number * variables_number ≠ data_number then Except.error ErrorKind.data
  else Except.ok ()

/-- Lines 286-287: `data_number = counter(data_file); errhl_incorrect_data();`.
The result is the value of `data_number` with which the run continues. -/
def main_count_check (data_file : List Char) (observation_number variables_number : Nat) :
    Except ErrorKind Nat :=
  match counter data_file with
  | Except.error e => Except.error e
  | Except.ok data_number =>
    match errhl_incorrect_data observation_number variables_number data_number with
    | Except.error e => Except.error e
    | Except.ok _ => Except.ok data_number

/-- The number of whitespace-delimited tokens of a text, in the words of the
specification: `inToken` tells whether the previous character belonged to a
token. -/
def spec_token_count_from : Bool → List Char → Nat
  | _, [] => 0
  | inToken, c :: rest =>
    if c.isWhitespace then spec_token_count_from false rest
    else (if inToken then 0 else 1) + spec_token_count_from true rest

/-- The number of whitespace-delimited tokens of a file. -/
def spec_token_count (file : List Char) : Nat := spec_token_count_from false file

/-- Lines 298-304: the fill loop of `main`.  The state is the matrix together
with the counter `k`, which the source never initialises: `k0` is the value it
holds when the loop starts.  `data_download` is indexed by the C `int` `k`. -/
def main_fill {α : Type} (k0 : Int) (observation_number variables_number : Nat)
    (data_download : Int → α) (data0 : Nat → Nat → α) : (Nat → Nat → α) × Int :=
  forLoop 0 variables_number
    (fun i st => forLoop 0 observation_number
      (fun j st => (setCell st.1 j i (data_download st.2), st.2 + 1)) st)
    (data0, k0)

/-- Lines 366-368: the lines of the RANKING section as triples of position,
index and label.  The pass for the value `i` of the counter prints `++i`,
`ranking_index_result[i]` and `observation[i]` in one argument list, where C
fixes no order between the increment and the two reads of `i`:
`index_after_increment` and `label_after_increment` tell whether the read of
`i` in the second and in the third argument sees the incremented value.  The
increment in the argument list is the only change of `i`, one per pass, so the
passes run for the counter values `0 .. observation_number - 1`. -/
def main_print {α : Type} (index_after_increment label_after_increment : Bool)
    (observation_number : Nat) (r : Ranking α) : List (Nat × α × String) :=
  forLoop 0 observation_number
    (fun i out => out ++
      [(i + 1,
        r.ranking_index_result (if index_after_increment then i + 1 else i),
        r.observation (if label_after_increment then i + 1 else i))])
    []

/-- Lines 323-341 as a run that either completes or stops with an error: the
loop and the functions it calls contain no call of an error handler and no
`exit`, so the run always completes. -/
def main_statistics_run {α : Type} [LinearOrderedField α] (F : FloatOps α)
    (observation_number variables_number : Nat) (min_coeff : α) (s : Stats α) :
    Except ErrorKind (Stats α) :=
  Except.ok (main_statistics F observation_number variables_number min_coeff s)

/-- A state of the statistics loop on a given matrix: `data_copy` is a copy of
`data`, the result arrays hold `0` and no note has been written. -/
def statsOf {α : Type} [LinearOrderedField α] (data : Nat → Nat → α) : Stats α :=
  { data := data
    data_copy := data
    min_result := fun _ => 0
    max_result := fun _ => 0
    mean_result := fun _ => 0
    median_result := fun _ => 0
    sd_result := fun _ => 0
    var_result := fun _ => 0
    coeff_of_var_result := fun _ => 0
    notes := [] }

/-- Three observations `A, B, C` with ranking indices `1, 1, 2`: `A` and `B`
are tied and `A` comes first. -/
def rankingTie : Ranking ℚ :=
  { ranking_index_result := fun k => [1, 1, 2].getD k 0
    observation := fun k => ["A", "B", "C"].getD k "" }

/-- The flat values `1, 10, 2, 20, 3, 15` of the scenario. -/
def scenarioFlat : Int → ℚ := fun k => [1, 10, 2, 20, 3, 15].getD k.toNat 0

/-- A data file of two lines, `1 2` and `3 4`: four numeric tokens. -/
def fourTokenFile : List Char := ['1', ' ', '2', newline, '3', ' ', '4']

/-- A file that starts with an empty line: a newline followed by `A`. -/
def leadingNewlineFile : List Char := [newline, 'A']

/-- Two observations and one variable whose value is `5` in both. -/
def constantData (α : Type) [LinearOrderedField α] : Nat → Nat → α := fun _ _ => 5

/-- Three observations `C, A, B` with ranking indices `2, 1, 1`, already in
non-increasing order, `A` and `B` tied. -/
def rankingSorted : Ranking ℚ :=
  { ranking_index_result := fun k => [2, 1, 1].getD k 0
    observation := fun k => ["C", "A", "B"].getD k "" }

/-- The scenario matrix in other units: variable `X` multiplied by `2` and
shifted by `7`, variable `Y` multiplied by `3` and shifted by `-1`. -/
def scenarioRescaled (α : Type) [LinearOrderedField α] : Nat → Nat → α :=
  fun j i => (if i = 0 then 2 else 3) * scenarioData α j i + (if i = 0 then 7 else -1)

/-! ## The same functions in binary32 arithmetic

The definitions above idealise `float` as a field.  The definitions below follow
the arithmetic the compiled program performs: every `float` operation is the
exact operation followed by rounding to binary32 (24-bit significand, least
unit `2^-149`), and the `double` operations inside `f_standard_deviation`
(`pow`, the addition in `sd += ...`, `sqrt`) round to binary64 (53-bit
significand, least unit `2^-1074`) before the result is stored in a `float`.
Rounding is to nearest, ties to even.  A finite value is a pair of integers;
a quotient by zero and the square root of a negative number (infinities and
NaN in IEEE arithmetic) are `none`.  Overflow is not modelled: every value
computed below is far inside the binary32 range. -/

/-- A finite binary floating-point value `m * 2^e`, kept with `m` odd, or with
`m = 0` and `e = 0` for zero. -/
structure FloatValue where
  m : Int
  e : Int
  deriving DecidableEq

/-- Number of binary digits of `n`, by repeated halving (`fuel` bounds the
number of digits). -/
def bitLengthLoop : Nat → Nat → Nat
  | 0, _ => 0
  | fuel + 1, n => if n = 0 then 0 else bitLengthLoop fuel (n / 2) + 1

/-- The exponent of the leading binary digit of `n > 0`: `2^k ≤ n < 2^(k+1)`. -/
def log2Floor (n : Nat) : Nat := bitLengthLoop 4096 n - 1

/-- Divide `m` by two as long as it is even, counting the divisions in `e`. -/
def stripTwos : Nat → Int → Int → FloatValue
  | 0, m, e => ⟨m, e⟩
  | fuel + 1, m, e => if m % 2 = 0 then stripTwos fuel (m / 2) (e + 1) else ⟨m, e⟩

/-- The value `m * 2^e` in the form kept by `FloatValue`. -/
def mkValue (m e : Int) : FloatValue :=
  if m = 0 then ⟨0, 0⟩ else stripTwos (log2Floor m.natAbs + 1) m e

/-- The integer `n` as a floating-point value (exact below `2^24`). -/
def ofInt (n : Int) : FloatValue := mkValue n 0

/-- The exponent of the leading binary digit of the ratio `N / D` of two
positive numbers. -/
def floorLog2Ratio (N D : Nat) : Int :=
  let l : Int := (log2Floor N : Int) - (log2Floor D : Int)
  if (if 0 ≤ l then D * 2 ^ l.toNat ≤ N else D ≤ N * 2 ^ (-l).toNat) then l else l - 1

/-- Round `± (N / D) * 2^s` to the nearest value with a significand of `p`
binary digits and least unit `2^emin`, ties to the even significand. -/
def roundRatio (p : Nat) (emin : Int) (negative : Bool) (N D : Nat) (s : Int) : FloatValue :=
  if N = 0 then ⟨0, 0⟩ else
    let u := floorLog2Ratio N D + s - ((p : Int) - 1)
    let t := if u < emin then emin else u
    let k := s - t
    let N2 := if 0 ≤ k then N * 2 ^ k.toNat else N
    let D2 := if 0 ≤ k then D else D * 2 ^ (-k).toNat
    let q := N2 / D2
    let r := N2 % D2
    let q2 := if D2 < 2 * r ∨ (2 * r = D2 ∧ q % 2 = 1) then q + 1 else q
    mkValue (if negative then -(q2 : Int) else (q2 : Int)) t

/-- Round the value `m * 2^e`. -/
def roundValue (p : Nat) (emin : Int) (m e : Int) : FloatValue :=
  roundRatio p emin (decide (m < 0)) m.natAbs 1 e

/-- Conversion of a value to `float`. -/
def round32 (a : FloatValue) : FloatValue := roundValue 24 (-149) a.m a.e

/-- The exact sum of two values, as significand and exponent. -/
def exactAdd (a b : FloatValue) : Int × Int :=
  let e := if a.e ≤ b.e then a.e else b.e
  (a.m * 2 ^ (a.e - e).toNat + b.m * 2 ^ (b.e - e).toNat, e)

/-- The `float` sum `a + b`. -/
def add32 (a b : FloatValue) : FloatValue :=
  roundValue 24 (-149) (exactAdd a b).1 (exactAdd a b).2

/-- The `float` difference `a - b`. -/
def sub32 (a b : FloatValue) : FloatValue := add32 a ⟨-b.m, b.e⟩

/-- The `float` quotient `a / b`; `none` when `b` is zero. -/
def div32 (a b : FloatValue) : Option FloatValue :=
  if b.m = 0 then none
  else some (roundRatio 24 (-149) (decide (a.m < 0) != decide (b.m < 0)) a.m.natAbs b.m.natAbs
    (a.e - b.e))

/-- The `double` sum `a + b`. -/
def add64 (a b : FloatValue) : FloatValue :=
  roundValue 53 (-1074) (exactAdd a b).1 (exactAdd a b).2

/-- The `double` value of `pow(a, 2)`. -/
def pow64_two (a : FloatValue) : FloatValue := roundValue 53 (-1074) (a.m * a.m) (2 * a.e)

/-- Integer square root, one binary digit per step from digit `k - 1` down. -/
def isqrtBits : Nat → Nat → Nat → Nat
  | 0, _, r => r
  | k + 1, n, r => isqrtBits k n (if (r + 2 ^ k) * (r + 2 ^ k) ≤ n then r + 2 ^ k else r)

/-- The integer part of the square root of `n`. -/
def isqrt (n : Nat) : Nat := isqrtBits (log2Floor n / 2 + 1) n 0

/-- The `double` value of `sqrt(a)`, correctly rounded; `none` for a negative
argument. -/
def sqrt64 (a : FloatValue) : Option FloatValue :=
  if a.m < 0 then none
  else if a.m = 0 then some ⟨0, 0⟩
  else
    let N := a.m.natAbs
    let u := ((log2Floor N : Int) + a.e) / 2 - 52
    let t := if u < -1074 then -1074 else u
    let k := a.e - 2 * t
    let A := if 0 ≤ k then N * 2 ^ k.toNat else N
    let B := if 0 ≤ k then 1 else 2 ^ (-k).toNat
    let q := isqrt (A / B)
    let q2 := if (2 * q + 1) * (2 * q + 1) * B < 4 * A ∨
      ((2 * q + 1) * (2 * q + 1) * B = 4 * A ∧ q % 2 = 1) then q + 1 else q
    some (mkValue (q2 : Int) t)

/-- The `float` that `fscanf("%f")` stores for the decimal text with value
`N / D`. -/
def read32 (N D : Nat) : FloatValue := roundRatio 24 (-149) false N D 0

/-- Source `f_mean` in binary32: every `sum += data[j][i]` rounds, and so does
`sum / observation_number`. -/
def f_mean_binary32 (observation_number : Nat) (data : Nat → Nat → FloatValue) (i : Nat) :
    Option FloatValue :=
  div32 (forLoop 0 observation_number (fun j sum => add32 sum (data j i)) ⟨0, 0⟩)
    (ofInt observation_number)

/-- One pass of the loop of `f_standard_deviation`:
`sd += pow(data[j][i] - mean_result[i], 2)`.  The difference is a `float`
operation, `pow` and the addition are `double` operations, and the result is
stored in the `float` `sd`. -/
def f_standard_deviation_step (x mean sd : FloatValue) : FloatValue :=
  round32 (add64 sd (pow64_two (sub32 x mean)))

/-- Source `f_standard_deviation` in binary32: `sd / observation_number` is a
`float` quotient, `sqrt` a `double` operation whose result is stored in the
`float` `sd`. -/
def f_standard_deviation_binary32 (observation_number : Nat) (data : Nat → Nat → FloatValue)
    (mean_result : Nat → FloatValue) (i : Nat) : Option FloatValue :=
  match div32
      (forLoop 0 observation_number
        (fun j sd => f_standard_deviation_step (data j i) (mean_result i) sd) ⟨0, 0⟩)
      (ofInt observation_number) with
  | none => none
  | some q =>
    match sqrt64 q with
    | none => none
    | some r => some (round32 r)

/-- Source `f_scale` in binary32. -/
def f_scale_binary32 (data : Nat → Nat → FloatValue) (mean_result sd_result : Nat → FloatValue)
    (i j : Nat) : Option FloatValue :=
  div32 (sub32 (data j i) (mean_result i)) (sd_result i)

/-- Seven observations of one variable, each read from the text `0.1`. -/
def tenthsData : Nat → Nat → FloatValue := fun _ _ => read32 1 10

/-- Two observations of one variable, read from the texts `1e-30` and `2e-30`. -/
def tinyData : Nat → Nat → FloatValue := fun j _ => read32 ([1, 2].getD j 0) (10 ^ 30)

/-- The entries of the scenario matrix, as integers. -/
def scenarioInt : Nat → Nat → Int :=
  fun j i => ([[1, 10], [2, 20], [3, 15]].getD j []).getD i 0

/-- The scenario matrix as `float` values. -/
def scenarioData32 : Nat → Nat → FloatValue := fun j i => ofInt (scenarioInt j i)

/-- The scenario matrix in other units, as `float` values: variable `X`
multiplied by `2` and shifted by `7`, variable `Y` multiplied by `3` and
shifted by `-1` (the matrix `scenarioRescaled`). -/
def scenarioRescaled32 : Nat → Nat → FloatValue :=
  fun j i => ofInt ((if i = 0 then 2 else 3) * scenarioInt j i + (if i = 0 then 7 else -1))

/-! ## Loop lemmas -/

theorem loopFrom_invariant {σ : Type} (body : Nat → σ → σ) (P : Nat → σ → Prop) :
    ∀ (c k : Nat) (s : σ), P k s →
      (∀ m t, k ≤ m → m < k + c → P m t → P (m + 1) (body m t)) →
      P (k + c) (loopFrom body k c s) := by
  intro c
  induction c with
  | zero => intro k s h _; simpa [loopFrom] using h
  | succ c ih =>
    intro k s h hstep
    have h1 : P (k + 1) (body k s) := hstep k s (le_refl k) (by omega) h
    have h2 := ih (k + 1) (body k s) h1
      (fun m t hm hlt hP => hstep m t (by omega) (by omega) hP)
    have e : k + (c + 1) = k + 1 + c := by omega
    rw [e]
    simpa [loopFrom] using h2

theorem forLoop_invariant {σ : Type} (lo hi : Nat) (body : Nat → σ → σ) (P : Nat → σ → Prop)
    (s : σ) (hle : lo ≤ hi) (h0 : P lo s)
    (hstep : ∀ m t, lo ≤ m → m < hi → P m t → P (m + 1) (body m t)) :
    P hi (forLoop lo hi body s) := by
  have h := loopFrom_invariant body P (hi - lo) lo s h0
    (fun m t hm hlt hP => hstep m t hm (by omega) hP)
  have e : lo + (hi - lo) = hi := by omega
  rw [e] at h
  exact h

theorem forLoop_empty {σ : Type} (lo hi : Nat) (body : Nat → σ → σ) (s : σ) (h : hi ≤ lo) :
    forLoop lo hi body s = s := by
  have e : hi - lo = 0 := by omega
  simp [forLoop, e, loopFrom]

theorem forLoop_sum {α : Type} [AddCommMonoid α] (n : Nat) (f : Nat → α) :
    forLoop 0 n (fun j sum => sum + f j) 0 = ∑ j in Finset.range n, f j := by
  refine forLoop_invariant 0 n _ (fun k s => s = ∑ j in Finset.range k, f j) 0 (Nat.zero_le n)
    (by simp) ?_
  intro m t _ _ ht
  rw [Finset.sum_range_succ, ht]

/-! ## The exchange sort shared by `main` and `f_median` -/

theorem exchange_sort_sorted {σ α : Type} [LinearOrder α] (key : σ → Nat → α)
    (step : Nat → Nat → σ → σ) (n : Nat)
    (hstep : ∀ i j s, i < j →
      key (step i j s) = if key s i < key s j then key s ∘ Equiv.swap i j else key s)
    (s : σ) (a b : Nat) (hab : a < b) (hb : b < n) :
    key (forLoop 0 (n - 1) (fun i s => forLoop (i + 1) n (fun j s => step i j s) s) s) b ≤
      key (forLoop 0 (n - 1) (fun i s => forLoop (i + 1) n (fun j s => step i j s) s) s) a := by
  have outer := forLoop_invariant 0 (n - 1)
    (fun i s => forLoop (i + 1) n (fun j s => step i j s) s)
    (fun i t => ∀ a b, a < i → a < b → b < n → key t b ≤ key t a) s (Nat.zero_le _)
    (by intro a b ha; omega) ?_
  · exact outer a b (by omega) hab hb
  · intro i t _ hi hP
    have inner := forLoop_invariant (i + 1) n (fun j s => step i j s)
      (fun j u => (∀ a b, a < i → a < b → b < n → key u b ≤ key u a) ∧
        (∀ b, i < b → b < j → key u b ≤ key u i)) t (by omega)
      ⟨hP, by intro b h1 h2; omega⟩ ?_
    · intro a b ha hab hb
      rcases Nat.lt_succ_iff_lt_or_eq.mp ha with h | h
      · exact inner.1 a b h hab hb
      · subst h; exact inner.2 b hab hb
    · intro j u hj hjn hQ
      obtain ⟨hQ1, hQ2⟩ := hQ
      have hij : i < j := by omega
      have hk := hstep i j u hij
      by_cases hc : key u i < key u j
      · rw [if_pos hc] at hk
        constructor
        · intro a b ha hab hb
          rw [hk]
          simp only [Function.comp_apply]
          have ea : Equiv.swap i j a = a :=
            Equiv.swap_apply_of_ne_of_ne (by omega) (by omega)
          rw [ea]
          by_cases hbi : b = i
          · subst hbi; rw [Equiv.swap_apply_left]; exact hQ1 a j ha (by omega) hjn
          · by_cases hbj : b = j
            · subst hbj; rw [Equiv.swap_apply_right]; exact hQ1 a i ha (by omega) (by omega)
            · rw [Equiv.swap_apply_of_ne_of_ne hbi hbj]; exact hQ1 a b ha hab hb
        · intro b hib hbj
          rw [hk]
          simp only [Function.comp_apply, Equiv.swap_apply_left]
          by_cases hbj2 : b = j
          · subst hbj2; rw [Equiv.swap_apply_right]; exact le_of_lt hc
          · rw [Equiv.swap_apply_of_ne_of_ne (by omega) hbj2]
            exact le_trans (hQ2 b hib (by omega)) (le_of_lt hc)
      · rw [if_neg hc] at hk
        rw [hk]
        refine ⟨hQ1, ?_⟩
        intro b hib hbj
        by_cases hbj2 : b = j
        · subst hbj2; exact not_lt.mp hc
        · exact hQ2 b hib (by omega)

theorem exchange_sort_perm {σ β : Type} (view : σ → Nat → β)
    (step : Nat → Nat → σ → σ) (n : Nat)
    (hstep : ∀ i j s, i < j → j < n →
      view (step i j s) = view s ∨ view (step i j s) = view s ∘ Equiv.swap i j)
    (s : σ) :
    ∃ π : Equiv.Perm Nat, (∀ k, n ≤ k → π k = k) ∧
      view (forLoop 0 (n - 1) (fun i s => forLoop (i + 1) n (fun j s => step i j s) s) s) =
        view s ∘ π := by
  refine forLoop_invariant 0 (n - 1)
    (fun i s => forLoop (i + 1) n (fun j s => step i j s) s)
    (fun _ t => ∃ π : Equiv.Perm Nat, (∀ k, n ≤ k → π k = k) ∧ view t = view s ∘ π) s
    (Nat.zero_le _) ⟨1, by simp, by funext k; simp⟩ ?_
  intro i t _ hi hP
  refine forLoop_invariant (i + 1) n (fun j s => step i j s)
    (fun _ u => ∃ π : Equiv.Perm Nat, (∀ k, n ≤ k → π k = k) ∧ view u = view s ∘ π) t
    (by omega) hP ?_
  intro j u hj hjn hQ
  obtain ⟨π, hfix, hv⟩ := hQ
  rcases hstep i j u (by omega) hjn with h | h
  · exact ⟨π, hfix, by rw [h, hv]⟩
  · refine ⟨π * Equiv.swap i j, ?_, ?_⟩
    · intro k hk
      have e : Equiv.swap i j k = k := Equiv.swap_apply_of_ne_of_ne (by omega) (by omega)
      simp [Equiv.Perm.mul_apply, e, hfix k hk]
    · rw [h, hv]
      funext k
      simp [Equiv.Perm.mul_apply]

theorem perm_fix_lt (π : Equiv.Perm Nat) (n : Nat) (hfix : ∀ k, n ≤ k → π k = k) (k : Nat)
    (hk : k < n) : π k < n := by
  by_contra h
  have h1 : π (π k) = π k := hfix (π k) (by omega)
  have h2 : π k = k := π.injective h1
  omega

theorem perm_map_range {β : Type} (π : Equiv.Perm Nat) (n : Nat)
    (hfix : ∀ k, n ≤ k → π k = k) (f : Nat → β) :
    ((List.range n).map (f ∘ π)).Perm ((List.range n).map f) := by
  have h1 : ((List.range n).map π).Perm (List.range n) := by
    rw [List.perm_ext_iff_of_nodup ((List.nodup_range n).map π.injective) (List.nodup_range n)]
    intro a
    simp only [List.mem_map, List.mem_range]
    constructor
    · rintro ⟨k, hk, rfl⟩
      exact perm_fix_lt π n hfix k hk
    · intro ha
      refine ⟨π.symm a, ?_, by simp⟩
      by_contra h
      have h2 : π (π.symm a) = π.symm a := hfix _ (by omega)
      simp at h2
      rw [← h2] at h
      exact h ha
  have h2 := h1.map f
  simpa [List.map_map] using h2

/-! ## The ranking sort of `main` -/

section Theorems

variable {α : Type} [LinearOrderedField α]

theorem setAt_exchange {β : Type} (a : Nat → β) (i j : Nat) :
    setAt (setAt a j (a i)) i (a j) = a ∘ Equiv.swap i j := by
  funext k
  simp only [setAt, Function.comp_apply, Equiv.swap_apply_def]
  by_cases h1 : k = i
  · simp [h1]
  · by_cases h2 : k = j
    · subst h2; simp [h1]
    · simp [h1, h2]

theorem main_sort_exchange_index (i j : Nat) (r : Ranking α) :
    (main_sort_exchange i j r).ranking_index_result =
      if r.ranking_index_result i < r.ranking_index_result j then
        r.ranking_index_result ∘ Equiv.swap i j
      else r.ranking_index_result := by
  unfold main_sort_exchange
  by_cases h : r.ranking_index_result i < r.ranking_index_result j
  · rw [if_pos h, if_pos h]; exact setAt_exchange _ i j
  · rw [if_neg h, if_neg h]

theorem main_sort_exchange_pairs (i j : Nat) (r : Ranking α) :
    (fun k => ((main_sort_exchange i j r).ranking_index_result k,
        (main_sort_exchange i j r).observation k)) =
      (fun k => (r.ranking_index_result k, r.observation k)) ∨
    (fun k => ((main_sort_exchange i j r).ranking_index_result k,
        (main_sort_exchange i j r).observation k)) =
      (fun k => (r.ranking_index_result k, r.observation k)) ∘ Equiv.swap i j := by
  unfold main_sort_exchange
  by_cases h : r.ranking_index_result i < r.ranking_index_result j
  · right
    rw [if_pos h]
    funext k
    simp only [Function.comp_apply]
    rw [setAt_exchange, setAt_exchange]
    rfl
  · left
    rw [if_neg h]

theorem main_sort_permutation (n : Nat) (r : Ranking α) :
    ∃ π : Equiv.Perm Nat, (∀ k, n ≤ k → π k = k) ∧
      (fun k => ((main_sort n r).ranking_index_result k, (main_sort n r).observation k)) =
        (fun k => (r.ranking_index_result k, r.observation k)) ∘ π :=
  exchange_sort_perm
    (fun (r : Ranking α) k => (r.ranking_index_result k, r.observation k))
    main_sort_exchange n (fun i j s _ _ => main_sort_exchange_pairs i j s) r

/-- C1: after the ranking sort loop of `main` the indices are in non-increasing
order: every adjacent pair of positions `k`, `k+1` below `observation_number`
satisfies `ranking_index_result[k] ≥ ranking_index_result[k+1]`. -/
theorem main_sort_nonincreasing (observation_number : Nat) (r : Ranking α) (k : Nat)
    (hk : k + 1 < observation_number) :
    (main_sort observation_number r).ranking_index_result k ≥
      (main_sort observation_number r).ranking_index_result (k + 1) :=
  exchange_sort_sorted (fun (r : Ranking α) => r.ranking_index_result) main_sort_exchange
    observation_number (fun i j s _ => main_sort_exchange_index i j s) r k (k + 1)
    (Nat.lt_succ_self k) hk

/-- C2: the ranking sort moves an index and its label as one unit: the list of
`(ranking_index, label)` pairs after the sort is a permutation of the list
before it, and when the labels are distinct the index standing next to a label
after the sort is the index that stood next to it before. -/
theorem main_sort_keeps_pairs (observation_number : Nat) (r : Ranking α) :
    ((main_sort observation_number r).pairs observation_number).Perm
        (r.pairs observation_number) ∧
      ((∀ a < observation_number, ∀ b < observation_number,
          r.observation a = r.observation b → a = b) →
        ∀ k < observation_number, ∀ p < observation_number,
          (main_sort observation_number r).observation p = r.observation k →
          (main_sort observation_number r).ranking_index_result p =
            r.ranking_index_result k) := by
  obtain ⟨π, hfix, hv⟩ := main_sort_permutation observation_number r
  constructor
  · have h := perm_map_range π observation_number hfix
      (fun k => (r.ranking_index_result k, r.observation k))
    rw [← hv] at h
    exact h
  · intro hinj k hk p hp hlabel
    have hp2 := congrFun hv p
    simp only [Function.comp_apply, Prod.mk.injEq] at hp2
    have hlt : π p < observation_number := perm_fix_lt π observation_number hfix p hp
    have e : π p = k := hinj (π p) hlt k hk (by rw [← hp2.2, hlabel])
    rw [hp2.1, e]

end Theorems

theorem main_sort_nonincreasing_witness :
    0 + 1 < 3 ∧
      (main_sort 3 rankingExample).ranking_index_result 0 ≥
        (main_sort 3 rankingExample).ranking_index_result (0 + 1) :=
  ⟨by decide, main_sort_nonincreasing 3 rankingExample 0 (by decide)⟩

theorem main_sort_keeps_pairs_witness :
    (∀ a < 3, ∀ b < 3, rankingExample.observation a = rankingExample.observation b → a = b) ∧
      (main_sort 3 rankingExample).observation 0 = rankingExample.observation 1 ∧
      (main_sort 3 rankingExample).ranking_index_result 0 =
        rankingExample.ranking_index_result 1 := by
  have hd : ∀ a < 3, ∀ b < 3,
      rankingExample.observation a = rankingExample.observation b → a = b := by decide
  have hl : (main_sort 3 rankingExample).observation 0 = rankingExample.observation 1 := by
    norm_num [main_sort, forLoop, loopFrom, main_sort_exchange, setAt, rankingExample]
  exact ⟨hd, hl, (main_sort_keeps_pairs 3 rankingExample).2 hd 1 (by decide) 0 (by decide) hl⟩

/-! ## Scans for a minimum or a maximum -/

section Scans

variable {α : Type} [LinearOrderedField α]

theorem scan_min (lo n : Nat) (f : Nat → α) (init : α) (h : lo ≤ n) :
    forLoop lo n (fun j m => if f j < m then f j else m) init ≤ init ∧
      (∀ j, lo ≤ j → j < n → forLoop lo n (fun j m => if f j < m then f j else m) init ≤ f j) ∧
      (forLoop lo n (fun j m => if f j < m then f j else m) init = init ∨
        ∃ j, lo ≤ j ∧ j < n ∧ forLoop lo n (fun j m => if f j < m then f j else m) init = f j) := by
  refine forLoop_invariant lo n (fun j m => if f j < m then f j else m)
    (fun k m => m ≤ init ∧ (∀ j, lo ≤ j → j < k → m ≤ f j) ∧
      (m = init ∨ ∃ j, lo ≤ j ∧ j < k ∧ m = f j)) init h
    ⟨le_refl _, by intro j h1 h2; omega, Or.inl rfl⟩ ?_
  intro k m hk hkn ⟨h1, h2, h3⟩
  by_cases hc : f k < m
  · simp only [if_pos hc]
    refine ⟨le_trans (le_of_lt hc) h1, ?_, Or.inr ⟨k, hk, Nat.lt_succ_self k, rfl⟩⟩
    intro j hj hjk
    rcases Nat.lt_succ_iff_lt_or_eq.mp hjk with h | h
    · exact le_trans (le_of_lt hc) (h2 j hj h)
    · rw [h]
  · simp only [if_neg hc]
    refine ⟨h1, ?_, ?_⟩
    · intro j hj hjk
      rcases Nat.lt_succ_iff_lt_or_eq.mp hjk with h | h
      · exact h2 j hj h
      · rw [h]; exact not_lt.mp hc
    · rcases h3 with h | ⟨j, hj, hjk, e⟩
      · exact Or.inl h
      · exact Or.inr ⟨j, hj, by omega, e⟩

theorem scan_max (lo n : Nat) (f : Nat → α) (init : α) (h : lo ≤ n) :
    init ≤ forLoop lo n (fun j m => if f j > m then f j else m) init ∧
      (∀ j, lo ≤ j → j < n → f j ≤ forLoop lo n (fun j m => if f j > m then f j else m) init) ∧
      (forLoop lo n (fun j m => if f j > m then f j else m) init = init ∨
        ∃ j, lo ≤ j ∧ j < n ∧ forLoop lo n (fun j m => if f j > m then f j else m) init = f j) := by
  refine forLoop_invariant lo n (fun j m => if f j > m then f j else m)
    (fun k m => init ≤ m ∧ (∀ j, lo ≤ j → j < k → f j ≤ m) ∧
      (m = init ∨ ∃ j, lo ≤ j ∧ j < k ∧ m = f j)) init h
    ⟨le_refl _, by intro j h1 h2; omega, Or.inl rfl⟩ ?_
  intro k m hk hkn ⟨h1, h2, h3⟩
  by_cases hc : f k > m
  · simp only [if_pos hc]
    refine ⟨le_trans h1 (le_of_lt hc), ?_, Or.inr ⟨k, hk, Nat.lt_succ_self k, rfl⟩⟩
    intro j hj hjk
    rcases Nat.lt_succ_iff_lt_or_eq.mp hjk with h | h
    · exact le_trans (h2 j hj h) (le_of_lt hc)
    · rw [h]
  · simp only [if_neg hc]
    refine ⟨h1, ?_, ?_⟩
    · intro j hj hjk
      rcases Nat.lt_succ_iff_lt_or_eq.mp hjk with h | h
      · exact h2 j hj h
      · rw [h]; exact not_lt.mp hc
    · rcases h3 with h | ⟨j, hj, hjk, e⟩
      · exact Or.inl h
      · exact Or.inr ⟨j, hj, by omega, e⟩

theorem FloatOps.div_of_ne (F : FloatOps α) (x y : α) (h : y ≠ 0) : F.div x y = x / y := by
  simp [FloatOps.div, h]

theorem main_ranking_index_apply (F : FloatOps α) (minimum0 maximum0 : Nat → α) (n : Nat)
    (means r0 : Nat → α) (i : Nat) (hi : i < n) :
    main_ranking_index F minimum0 maximum0 n means r0 i =
      ranking_f_index F means (ranking_f_minimum (minimum0 i) n means)
        (ranking_f_maximum (maximum0 i) n means) i := by
  have h := forLoop_invariant 0 n
    (fun i r => setAt r i
      (ranking_f_index F means (ranking_f_minimum (minimum0 i) n means)
        (ranking_f_maximum (maximum0 i) n means) i))
    (fun k r => ∀ i, i < k → r i =
      ranking_f_index F means (ranking_f_minimum (minimum0 i) n means)
        (ranking_f_maximum (maximum0 i) n means) i) r0 (Nat.zero_le n)
    (by intro i hi; omega) ?_
  · exact h i hi
  · intro k r _ _ hr i hik
    by_cases e : i = k
    · subst e; simp [setAt]
    · simp only [setAt, if_neg e]; exact hr i (by omega)

/-- Away from the degenerate divisor the ranking index lies in `[0, 1]`, whatever
the two accumulators held on entry. -/
theorem main_ranking_index_bounds (F : FloatOps α) (minimum0 maximum0 : Nat → α) (n : Nat)
    (means r0 : Nat → α) (i : Nat) (hi : i < n)
    (hne : ranking_f_maximum (maximum0 i) n means ≠ ranking_f_minimum (minimum0 i) n means) :
    0 ≤ main_ranking_index F minimum0 maximum0 n means r0 i ∧
      main_ranking_index F minimum0 maximum0 n means r0 i ≤ 1 := by
  rw [main_ranking_index_apply F minimum0 maximum0 n means r0 i hi]
  have hmin := (scan_min 0 n means (minimum0 i) (Nat.zero_le n)).2.1 i (Nat.zero_le i) hi
  have hmax := (scan_max 0 n means (maximum0 i) (Nat.zero_le n)).2.1 i (Nat.zero_le i) hi
  change ranking_f_minimum (minimum0 i) n means ≤ means i at hmin
  change means i ≤ ranking_f_maximum (maximum0 i) n means at hmax
  have hpos : 0 < ranking_f_maximum (maximum0 i) n means - ranking_f_minimum (minimum0 i) n means :=
    sub_pos.mpr (lt_of_le_of_ne (le_trans hmin hmax) (Ne.symm hne))
  unfold ranking_f_index
  rw [FloatOps.div_of_ne F _ _ (ne_of_gt hpos)]
  constructor
  · exact div_nonneg (sub_nonneg.mpr hmin) (le_of_lt hpos)
  · rw [div_le_one hpos]
    exact sub_le_sub_right hmax _

/-- C3: for two observations whose raw means coincide, with both accumulators
holding `0` on entry, `ranking_f_maximum` and `ranking_f_minimum` return the
same value and each ranking index computed by `main` is the quotient `0 / 0`;
it is not a number of the interval `[0, 1]`. -/
theorem main_ranking_index_equal_means (F : FloatOps α) (r0 : Nat → α) :
    ranking_f_maximum 0 2 (equalMeans α) - ranking_f_minimum 0 2 (equalMeans α) = 0 ∧
      main_ranking_index F (fun _ => 0) (fun _ => 0) 2 (equalMeans α) r0 0 = F.divZero 0 ∧
      main_ranking_index F (fun _ => 0) (fun _ => 0) 2 (equalMeans α) r0 1 = F.divZero 0 := by
  simp [main_ranking_index, ranking_f_index, ranking_f_minimum, ranking_f_maximum, forLoop,
    loopFrom, setAt, equalMeans, FloatOps.div]

/-- C4: for the raw means `-1, 1`, with the accumulator of `ranking_f_minimum`
holding `-3` on entry, `ranking_f_minimum` returns `-3` instead of the least
raw mean `-1`, and the ranking index `main` computes for the observation with
the least raw mean is `1/2`, not `0`. -/
theorem main_ranking_index_stale_minimum (F : FloatOps α) (r0 : Nat → α) :
    ranking_f_minimum (-3) 2 (twoMeans α) = -3 ∧
      main_ranking_index F (fun _ => -3) (fun _ => 0) 2 (twoMeans α) r0 0 = 1 / 2 := by
  norm_num [main_ranking_index, ranking_f_index, ranking_f_minimum, ranking_f_maximum, forLoop,
    loopFrom, setAt, twoMeans, FloatOps.div]

end Scans

/-! ## Descriptive statistics -/

section Statistics

variable {α : Type} [LinearOrderedField α]

theorem f_mean_sum (F : FloatOps α) (n : Nat) (data : Nat → Nat → α) (i : Nat) :
    f_mean F n data i = F.div (∑ j in Finset.range n, data j i) (n : α) := by
  unfold f_mean
  congr 1
  exact forLoop_sum n (fun j => data j i)

theorem f_standard_deviation_sum (F : FloatOps α) (n : Nat) (data : Nat → Nat → α)
    (mean_result : Nat → α) (i : Nat) :
    f_standard_deviation F n data mean_result i =
      F.sqrt (F.div (∑ j in Finset.range n, (data j i - mean_result i) ^ 2) (n : α)) := by
  unfold f_standard_deviation
  congr 2
  exact forLoop_sum n (fun j => (data j i - mean_result i) ^ 2)

theorem cast_ne_zero_of_pos (n : Nat) (hn : 1 ≤ n) : (n : α) ≠ 0 :=
  Nat.cast_ne_zero.mpr (by omega)

theorem f_mean_eq (F : FloatOps α) (n : Nat) (hn : 1 ≤ n) (data : Nat → Nat → α) (i : Nat) :
    f_mean F n data i = (∑ j in Finset.range n, data j i) / (n : α) := by
  rw [f_mean_sum, FloatOps.div_of_ne F _ _ (cast_ne_zero_of_pos n hn)]

theorem f_standard_deviation_eq (F : FloatOps α) (n : Nat) (hn : 1 ≤ n)
    (data : Nat → Nat → α) (mean_result : Nat → α) (i : Nat) :
    f_standard_deviation F n data mean_result i =
      F.sqrt ((∑ j in Finset.range n, (data j i - mean_result i) ^ 2) / (n : α)) := by
  rw [f_standard_deviation_sum, FloatOps.div_of_ne F _ _ (cast_ne_zero_of_pos n hn)]

theorem f_mean_congr (F : FloatOps α) (n : Nat) (data data2 : Nat → Nat → α) (i : Nat)
    (h : ∀ j, j < n → data j i = data2 j i) : f_mean F n data i = f_mean F n data2 i := by
  rw [f_mean_sum, f_mean_sum]
  congr 1
  exact Finset.sum_congr rfl (fun j hj => h j (Finset.mem_range.mp hj))

theorem f_standard_deviation_congr (F : FloatOps α) (n : Nat) (data data2 : Nat → Nat → α)
    (m m2 : Nat → α) (i : Nat) (h : ∀ j, j < n → data j i = data2 j i) (hm : m i = m2 i) :
    f_standard_deviation F n data m i = f_standard_deviation F n data2 m2 i := by
  rw [f_standard_deviation_sum, f_standard_deviation_sum]
  congr 2
  refine Finset.sum_congr rfl (fun j hj => ?_)
  rw [h j (Finset.mem_range.mp hj), hm]

theorem f_minimum_le (n : Nat) (hn : 1 ≤ n) (data : Nat → Nat → α) (i j : Nat) (hj : j < n) :
    f_minimum n data i ≤ data j i := by
  have h := scan_min 1 n (fun j => data j i) (data 0 i) hn
  by_cases e : j = 0
  · subst e; exact h.1
  · exact h.2.1 j (by omega) hj

theorem f_minimum_mem (n : Nat) (hn : 1 ≤ n) (data : Nat → Nat → α) (i : Nat) :
    ∃ j, j < n ∧ f_minimum n data i = data j i := by
  rcases (scan_min 1 n (fun j => data j i) (data 0 i) hn).2.2 with h | ⟨j, _, hj, e⟩
  · exact ⟨0, by omega, h⟩
  · exact ⟨j, hj, e⟩

theorem le_f_maximum (n : Nat) (hn : 1 ≤ n) (data : Nat → Nat → α) (i j : Nat) (hj : j < n) :
    data j i ≤ f_maximum n data i := by
  have h := scan_max 1 n (fun j => data j i) (data 0 i) hn
  by_cases e : j = 0
  · subst e; exact h.1
  · exact h.2.1 j (by omega) hj

theorem f_maximum_mem (n : Nat) (hn : 1 ≤ n) (data : Nat → Nat → α) (i : Nat) :
    ∃ j, j < n ∧ f_maximum n data i = data j i := by
  rcases (scan_max 1 n (fun j => data j i) (data 0 i) hn).2.2 with h | ⟨j, _, hj, e⟩
  · exact ⟨0, by omega, h⟩
  · exact ⟨j, hj, e⟩

theorem scenario_standard_deviation (F : FloatOps α) :
    f_standard_deviation F 3 (scenarioData α) (fun _ => f_mean F 3 (scenarioData α) 0) 0 =
      F.sqrt (2 / 3) := by
  rw [f_standard_deviation_eq F 3 (by norm_num), f_mean_eq F 3 (by norm_num)]
  congr 1
  norm_num [Finset.sum_range_succ, scenarioData]

/-- C7: called with the arithmetic mean of the column, `f_standard_deviation`
returns the population standard deviation: the square root of the sum of squared
deviations divided by `observation_number` (not by `observation_number - 1`);
for the column `1, 2, 3` of the scenario the result is `sqrt (2/3)`. -/
theorem f_standard_deviation_population (F : FloatOps α) (observation_number : Nat)
    (hn : 1 ≤ observation_number) (data : Nat → Nat → α) (mean_result : Nat → α) (i : Nat)
    (hmean : mean_result i = f_mean F observation_number data i) :
    f_standard_deviation F observation_number data mean_result i =
        F.sqrt ((∑ j in Finset.range observation_number,
          (data j i - (∑ k in Finset.range observation_number, data k i) / observation_number) ^ 2)
            / observation_number) ∧
      f_standard_deviation F 3 (scenarioData α) (fun _ => f_mean F 3 (scenarioData α) 0) 0 =
        F.sqrt (2 / 3) := by
  constructor
  · rw [f_standard_deviation_eq F observation_number hn, hmean, f_mean_eq F observation_number hn]
  · exact scenario_standard_deviation F

theorem f_standard_deviation_population_witness :
    (1 ≤ 3) ∧
      f_standard_deviation (opsOf Real.sqrt) 3 (scenarioData ℝ)
        (fun _ => f_mean (opsOf Real.sqrt) 3 (scenarioData ℝ) 0) 0 =
        Real.sqrt (2 / 3) :=
  ⟨by norm_num,
    (f_standard_deviation_population (opsOf Real.sqrt) 3 (by norm_num)
      (scenarioData ℝ)
      (fun _ => f_mean (opsOf Real.sqrt) 3 (scenarioData ℝ) 0) 0 rfl).2⟩

/-- C8: for at least one observation the minimum of a column is at most its
mean, and the mean is at most its maximum. -/
theorem f_minimum_le_f_mean_le_f_maximum (F : FloatOps α) (observation_number : Nat)
    (hn : 1 ≤ observation_number) (data : Nat → Nat → α) (i : Nat) :
    f_minimum observation_number data i ≤ f_mean F observation_number data i ∧
      f_mean F observation_number data i ≤ f_maximum observation_number data i := by
  have hpos : (0 : α) < (observation_number : α) := Nat.cast_pos.mpr (by omega)
  rw [f_mean_eq F observation_number hn]
  constructor
  · rw [le_div_iff₀ hpos]
    have h := Finset.card_nsmul_le_sum (Finset.range observation_number) (fun j => data j i)
      (f_minimum observation_number data i)
      (fun j hj => f_minimum_le observation_number hn data i j (Finset.mem_range.mp hj))
    rw [Finset.card_range, nsmul_eq_mul] at h
    linarith
  · rw [div_le_iff₀ hpos]
    have h := Finset.sum_le_card_nsmul (Finset.range observation_number) (fun j => data j i)
      (f_maximum observation_number data i)
      (fun j hj => le_f_maximum observation_number hn data i j (Finset.mem_range.mp hj))
    rw [Finset.card_range, nsmul_eq_mul] at h
    linarith

theorem f_minimum_le_f_mean_le_f_maximum_witness :
    (1 ≤ 3) ∧
      f_minimum 3 (scenarioData ℝ) 1 ≤ f_mean (opsOf Real.sqrt) 3 (scenarioData ℝ) 1 ∧
      f_mean (opsOf Real.sqrt) 3 (scenarioData ℝ) 1 ≤ f_maximum 3 (scenarioData ℝ) 1 :=
  ⟨by norm_num,
    f_minimum_le_f_mean_le_f_maximum (opsOf Real.sqrt) 3 (by norm_num) (scenarioData ℝ) 1⟩

end Statistics

/-! ## The statistics and scaling loop of `main` -/

section StatisticsLoop

variable {α : Type} [LinearOrderedField α]

theorem main_scale_column_apply (F : FloatOps α) (n : Nat) (mr sr : Nat → α) (i : Nat)
    (data : Nat → Nat → α) (j c : Nat) :
    main_scale_column F n mr sr i data j c =
      if j < n ∧ c = i then F.div (data j i - mr i) (sr i) else data j c := by
  have h := forLoop_invariant 0 n
    (fun j d => setCell d j i (f_scale F d mr sr i j))
    (fun k d => ∀ j c, d j c =
      if j < k ∧ c = i then F.div (data j i - mr i) (sr i) else data j c) data (Nat.zero_le n)
    (by intro j c; simp) ?_
  · exact h j c
  · intro k d _ _ hd j c
    have hk : d k i = data k i := by rw [hd k i]; simp
    by_cases e : j = k ∧ c = i
    · obtain ⟨e1, e2⟩ := e
      subst e1; subst e2
      simp [setCell, f_scale, hk]
    · have e2 : (j < k + 1 ∧ c = i) ↔ (j < k ∧ c = i) := by
        constructor
        · rintro ⟨h1, h2⟩
          exact ⟨by by_contra h3; exact e ⟨by omega, h2⟩, h2⟩
        · rintro ⟨h1, h2⟩
          exact ⟨by omega, h2⟩
      simp only [setCell, if_neg e, hd j c, e2]

theorem main_variable_data_apply (F : FloatOps α) (n : Nat) (min_coeff : α) (i : Nat)
    (s : Stats α) (j c : Nat) :
    (main_variable F n min_coeff i s).data j c =
      if j < n ∧ c = i then
        F.div (s.data j i - f_mean F n s.data i)
          (f_standard_deviation F n s.data (fun _ => f_mean F n s.data i) i)
      else s.data j c := by
  have e : (main_variable F n min_coeff i s).data =
      main_scale_column F n (setAt s.mean_result i (f_mean F n s.data i))
        (setAt s.sd_result i
          (f_standard_deviation F n s.data (setAt s.mean_result i (f_mean F n s.data i)) i))
        i s.data := rfl
  rw [e, main_scale_column_apply]
  have e2 : f_standard_deviation F n s.data (setAt s.mean_result i (f_mean F n s.data i)) i =
      f_standard_deviation F n s.data (fun _ => f_mean F n s.data i) i :=
    f_standard_deviation_congr F n s.data s.data _ _ i (fun _ _ => rfl) (by simp [setAt])
  simp only [setAt, if_true, e2]

theorem main_statistics_data_apply (F : FloatOps α) (n v : Nat) (min_coeff : α)
    (s : Stats α) (j c : Nat) :
    (main_statistics F n v min_coeff s).data j c =
      if j < n ∧ c < v then
        F.div (s.data j c - f_mean F n s.data c)
          (f_standard_deviation F n s.data (fun _ => f_mean F n s.data c) c)
      else s.data j c := by
  have h := forLoop_invariant 0 v (fun i s => main_variable F n min_coeff i s)
    (fun k t => ∀ j c, t.data j c =
      if j < n ∧ c < k then
        F.div (s.data j c - f_mean F n s.data c)
          (f_standard_deviation F n s.data (fun _ => f_mean F n s.data c) c)
      else s.data j c) s (Nat.zero_le v) (by intro j c; simp) ?_
  · exact h j c
  · intro k t _ _ ht j c
    have hcol : ∀ j, j < n → t.data j k = s.data j k := by
      intro j _
      rw [ht j k]; simp
    have hm : f_mean F n t.data k = f_mean F n s.data k := f_mean_congr F n _ _ k hcol
    have hs : f_standard_deviation F n t.data (fun _ => f_mean F n t.data k) k =
        f_standard_deviation F n s.data (fun _ => f_mean F n s.data k) k :=
      f_standard_deviation_congr F n _ _ _ _ k hcol hm
    rw [main_variable_data_apply]
    by_cases e : j < n ∧ c = k
    · obtain ⟨e1, e2⟩ := e
      subst e2
      have e3 : j < n ∧ c < c + 1 := ⟨e1, Nat.lt_succ_self c⟩
      rw [if_pos ⟨e1, rfl⟩, if_pos e3, hs, hm, hcol j e1]
    · rw [if_neg e, ht j c]
      have e2 : (j < n ∧ c < k + 1) ↔ (j < n ∧ c < k) := by
        constructor
        · rintro ⟨h1, h2⟩
          exact ⟨h1, by by_contra h3; exact e ⟨h1, by omega⟩⟩
        · rintro ⟨h1, h2⟩
          exact ⟨h1, by omega⟩
      simp only [e2]

theorem ExactSqrt_one (F : FloatOps α) (hF : F.ExactSqrt) : F.sqrt 1 = 1 := by
  obtain ⟨h0, h1⟩ := hF 1 zero_le_one
  have h2 : (F.sqrt 1 - 1) * (F.sqrt 1 + 1) = 0 := by ring_nf; rw [pow_two, h1]; ring
  rcases mul_eq_zero.mp h2 with h | h
  · linarith
  · linarith

theorem standardized_sum (n : Nat) (hn : 1 ≤ n) (x : Nat → α) (sd : α) :
    (∑ j in Finset.range n, (x j - (∑ k in Finset.range n, x k) / (n : α)) / sd) = 0 := by
  have hn0 : (n : α) ≠ 0 := cast_ne_zero_of_pos n hn
  rw [← Finset.sum_div, Finset.sum_sub_distrib, Finset.sum_const, Finset.card_range,
    nsmul_eq_mul, mul_div_cancel₀ _ hn0, sub_self, zero_div]

/-- The standardized column measured with the program's own `f_mean` and
`f_standard_deviation`. -/
theorem main_statistics_standardizes_functions (F : FloatOps α) (hF : F.ExactSqrt)
    (observation_number variables_number : Nat) (hn : 1 ≤ observation_number)
    (min_coeff : α) (s : Stats α) (i : Nat) (hi : i < variables_number)
    (hsd : f_standard_deviation F observation_number s.data
      (fun _ => f_mean F observation_number s.data i) i ≠ 0) :
    f_mean F observation_number
        (main_statistics F observation_number variables_number min_coeff s).data i = 0 ∧
      f_standard_deviation F observation_number
        (main_statistics F observation_number variables_number min_coeff s).data
        (fun _ => f_mean F observation_number
          (main_statistics F observation_number variables_number min_coeff s).data i) i = 1 := by
  have hn0 : (observation_number : α) ≠ 0 := cast_ne_zero_of_pos observation_number hn
  have hcol : ∀ j, j < observation_number →
      (main_statistics F observation_number variables_number min_coeff s).data j i =
        (s.data j i - (∑ k in Finset.range observation_number, s.data k i) / observation_number) /
          f_standard_deviation F observation_number s.data
            (fun _ => f_mean F observation_number s.data i) i := by
    intro j hj
    rw [main_statistics_data_apply, if_pos ⟨hj, hi⟩, FloatOps.div_of_ne F _ _ hsd,
      f_mean_eq F observation_number hn]
  have hmean : f_mean F observation_number
      (main_statistics F observation_number variables_number min_coeff s).data i = 0 := by
    rw [f_mean_eq F observation_number hn,
      Finset.sum_congr rfl (fun j hj => hcol j (Finset.mem_range.mp hj)),
      standardized_sum observation_number hn, zero_div]
  refine ⟨hmean, ?_⟩
  rw [f_standard_deviation_eq F observation_number hn, hmean]
  have hsq : ∀ j ∈ Finset.range observation_number,
      ((main_statistics F observation_number variables_number min_coeff s).data j i - 0) ^ 2 =
        (s.data j i - (∑ k in Finset.range observation_number, s.data k i) / observation_number) ^ 2
          / (f_standard_deviation F observation_number s.data
            (fun _ => f_mean F observation_number s.data i) i) ^ 2 := by
    intro j hj
    rw [hcol j (Finset.mem_range.mp hj), sub_zero, div_pow]
  rw [Finset.sum_congr rfl hsq, ← Finset.sum_div]
  have hV : 0 ≤ (∑ j in Finset.range observation_number,
      (s.data j i - (∑ k in Finset.range observation_number, s.data k i) / observation_number) ^ 2)
        / (observation_number : α) :=
    div_nonneg (Finset.sum_nonneg (fun j _ => sq_nonneg _)) (Nat.cast_nonneg _)
  have hsdeq : f_standard_deviation F observation_number s.data
      (fun _ => f_mean F observation_number s.data i) i =
      F.sqrt ((∑ j in Finset.range observation_number,
        (s.data j i - (∑ k in Finset.range observation_number, s.data k i) / observation_number) ^ 2)
          / (observation_number : α)) := by
    rw [f_standard_deviation_eq F observation_number hn, f_mean_eq F observation_number hn]
  have hmul := (hF _ hV).2
  rw [← hsdeq] at hmul
  have harg : (∑ j in Finset.range observation_number,
      (s.data j i - (∑ k in Finset.range observation_number, s.data k i) / observation_number) ^ 2)
        / (f_standard_deviation F observation_number s.data
            (fun _ => f_mean F observation_number s.data i) i) ^ 2 / (observation_number : α)
      = 1 := by
    rw [div_right_comm, ← hmul, pow_two]
    exact div_self (mul_ne_zero hsd hsd)
  rw [harg]
  exact ExactSqrt_one F hF

/-- C5: in exact arithmetic, after the statistics and scaling loop of `main`
every column whose raw population standard deviation is non-zero has arithmetic
mean `0` (the sum of the column divided by `observation_number`) and population
standard deviation `1` (the square root of the mean squared deviation from that
arithmetic mean); the column is rewritten with its own mean and standard
deviation, computed on the raw column. -/
theorem main_statistics_standardizes (F : FloatOps α) (hF : F.ExactSqrt)
    (observation_number variables_number : Nat) (hn : 1 ≤ observation_number)
    (min_coeff : α) (s : Stats α) (i : Nat) (hi : i < variables_number)
    (hsd : F.sqrt ((∑ j in Finset.range observation_number,
      (s.data j i - (∑ k in Finset.range observation_number, s.data k i) /
        (observation_number : α)) ^ 2) / (observation_number : α)) ≠ 0) :
    (∑ j in Finset.range observation_number,
        (main_statistics F observation_number variables_number min_coeff s).data j i) /
        (observation_number : α) = 0 ∧
      F.sqrt ((∑ j in Finset.range observation_number,
        ((main_statistics F observation_number variables_number min_coeff s).data j i -
          (∑ k in Finset.range observation_number,
            (main_statistics F observation_number variables_number min_coeff s).data k i) /
            (observation_number : α)) ^ 2) / (observation_number : α)) = 1 := by
  have hsd2 : f_standard_deviation F observation_number s.data
      (fun _ => f_mean F observation_number s.data i) i ≠ 0 := by
    rw [f_standard_deviation_eq F observation_number hn, f_mean_eq F observation_number hn]
    exact hsd
  have h := main_statistics_standardizes_functions F hF observation_number variables_number hn
    min_coeff s i hi hsd2
  rw [f_standard_deviation_eq F observation_number hn, f_mean_eq F observation_number hn] at h
  exact h

/-- C10: for every variable the variance stored by `main` is exactly the
square of the standard deviation stored for the same variable. -/
theorem main_variance_eq_sd_squared (F : FloatOps α) (observation_number variables_number : Nat)
    (min_coeff : α) (s : Stats α) (i : Nat) (hi : i < variables_number) :
    (main_statistics F observation_number variables_number min_coeff s).var_result i =
      (main_statistics F observation_number variables_number min_coeff s).sd_result i ^ 2 := by
  have h := forLoop_invariant 0 variables_number
    (fun i s => main_variable F observation_number min_coeff i s)
    (fun k t => ∀ i, i < k → t.var_result i = t.sd_result i ^ 2) s (Nat.zero_le _)
    (by intro i hi; omega) ?_
  · exact h i hi
  · intro k t _ _ ht i hik
    by_cases e : i = k
    · subst e; simp [main_variable, setAt]
    · have h2 := ht i (by omega)
      simp [main_variable, setAt, e, h2]

theorem ExactSqrt_mul_self (F : FloatOps α) (hF : F.ExactSqrt) (y : α) (hy : 0 ≤ y) :
    F.sqrt (y * y) = y := by
  obtain ⟨h0, h1⟩ := hF (y * y) (mul_self_nonneg y)
  have h2 : (F.sqrt (y * y) - y) * (F.sqrt (y * y) + y) = 0 := by
    have e : (F.sqrt (y * y) - y) * (F.sqrt (y * y) + y) =
        F.sqrt (y * y) * F.sqrt (y * y) - y * y := by ring
    rw [e, h1, sub_self]
  rcases mul_eq_zero.mp h2 with h | h
  · linarith
  · linarith

theorem main_ranking_mean_apply (F : FloatOps α) (n v : Nat) (data : Nat → Nat → α)
    (r0 : Nat → α) (i : Nat) (hi : i < n) :
    main_ranking_mean F n v data r0 i = ranking_f_mean F v data i := by
  have h := forLoop_invariant 0 n (fun i r => setAt r i (ranking_f_mean F v data i))
    (fun k r => ∀ i, i < k → r i = ranking_f_mean F v data i) r0 (Nat.zero_le n)
    (by intro i hi; omega) ?_
  · exact h i hi
  · intro k r _ _ hr i hik
    by_cases e : i = k
    · subst e; simp [setAt]
    · simp only [setAt, if_neg e]; exact hr i (by omega)

theorem ranking_f_mean_eq (F : FloatOps α) (v : Nat) (hv : 1 ≤ v) (data : Nat → Nat → α)
    (i : Nat) : ranking_f_mean F v data i = (∑ j in Finset.range v, data i j) / (v : α) := by
  unfold ranking_f_mean
  rw [FloatOps.div_of_ne F _ _ (cast_ne_zero_of_pos v hv)]
  congr 1
  exact forLoop_sum v (fun j => data i j)

theorem equalMeansData_statistics (F : FloatOps α) (hF : F.ExactSqrt) (c : Nat) (hc : c < 2) :
    f_mean F 2 (equalMeansData α) c = 3 / 2 ∧
      f_standard_deviation F 2 (equalMeansData α)
        (fun _ => f_mean F 2 (equalMeansData α) c) c = 1 / 2 := by
  have hm : f_mean F 2 (equalMeansData α) c = 3 / 2 := by
    rw [f_mean_eq F 2 (by norm_num)]
    interval_cases c <;> norm_num [Finset.sum_range_succ, equalMeansData]
  refine ⟨hm, ?_⟩
  rw [f_standard_deviation_eq F 2 (by norm_num), hm]
  have e : (∑ j in Finset.range 2, (equalMeansData α j c - 3 / 2) ^ 2) / ((2 : ℕ) : α) =
      (1 / 2) * (1 / 2) := by
    interval_cases c <;> norm_num [Finset.sum_range_succ, equalMeansData]
  rw [e]
  exact ExactSqrt_mul_self F hF (1 / 2) (by norm_num)

/-- On the matrix `equalMeansData` the statistics loop followed by the raw-mean
loop of `main` yields the raw means `equalMeans`. -/
theorem main_raw_means_equal (F : FloatOps α) (hF : F.ExactSqrt) (min_coeff : α)
    (s : Stats α) (hs : s.data = equalMeansData α) (r0 : Nat → α) (i : Nat) (hi : i < 2) :
    main_ranking_mean F 2 2 (main_statistics F 2 2 min_coeff s).data r0 i = equalMeans α i := by
  rw [main_ranking_mean_apply F 2 2 _ r0 i hi, ranking_f_mean_eq F 2 (by norm_num)]
  have h0 := equalMeansData_statistics F hF 0 (by norm_num)
  have h1 := equalMeansData_statistics F hF 1 (by norm_num)
  simp only [Finset.sum_range_succ, Finset.sum_range_zero, main_statistics_data_apply, hs,
    h0.2, h1.2]
  simp only [h0.1, h1.1]
  interval_cases i <;> norm_num [equalMeansData, equalMeans, FloatOps.div]

theorem twoMeansData_statistics (F : FloatOps α) (hF : F.ExactSqrt) :
    f_mean F 2 (twoMeansData α) 0 = 3 / 2 ∧
      f_standard_deviation F 2 (twoMeansData α)
        (fun _ => f_mean F 2 (twoMeansData α) 0) 0 = 1 / 2 := by
  have hm : f_mean F 2 (twoMeansData α) 0 = 3 / 2 := by
    rw [f_mean_eq F 2 (by norm_num)]
    norm_num [Finset.sum_range_succ, twoMeansData]
  refine ⟨hm, ?_⟩
  rw [f_standard_deviation_eq F 2 (by norm_num), hm]
  have e : (∑ j in Finset.range 2, (twoMeansData α j 0 - 3 / 2) ^ 2) / ((2 : ℕ) : α) =
      (1 / 2) * (1 / 2) := by
    norm_num [Finset.sum_range_succ, twoMeansData]
  rw [e]
  exact ExactSqrt_mul_self F hF (1 / 2) (by norm_num)

/-- On the matrix `twoMeansData` the statistics loop followed by the raw-mean
loop of `main` yields the raw means `twoMeans`. -/
theorem main_raw_means_two (F : FloatOps α) (hF : F.ExactSqrt) (min_coeff : α)
    (s : Stats α) (hs : s.data = twoMeansData α) (r0 : Nat → α) (i : Nat) (hi : i < 2) :
    main_ranking_mean F 2 1 (main_statistics F 2 1 min_coeff s).data r0 i = twoMeans α i := by
  rw [main_ranking_mean_apply F 2 1 _ r0 i hi, ranking_f_mean_eq F 1 (by norm_num)]
  have h0 := twoMeansData_statistics F hF
  simp only [Finset.sum_range_succ, Finset.sum_range_zero, main_statistics_data_apply, hs,
    h0.2]
  simp only [h0.1]
  interval_cases i <;> norm_num [twoMeansData, twoMeans, FloatOps.div]

end StatisticsLoop

/-! ## The median -/

section Median

variable {α : Type} [LinearOrderedField α]

theorem f_median_exchange_column (i j k : Nat) (d : Nat → Nat → α) :
    (fun m => f_median_exchange i j k d m i) =
      if (fun m => d m i) j < (fun m => d m i) k then (fun m => d m i) ∘ Equiv.swap j k
      else (fun m => d m i) := by
  unfold f_median_exchange
  by_cases h : d j i < d k i
  · simp only [if_pos h]
    funext m
    simp only [setCell, Function.comp_apply, Equiv.swap_apply_def, and_true]
    by_cases h1 : m = k
    · subst h1
      by_cases h2 : m = j
      · subst h2; simp
      · simp [h2]
    · by_cases h2 : m = j
      · subst h2; simp [h1]
      · simp [h1, h2]
  · simp only [if_neg h]

theorem f_median_sort_sorted (n : Nat) (d : Nat → Nat → α) (i a b : Nat) (hab : a < b)
    (hb : b < n) : f_median_sort n d i b i ≤ f_median_sort n d i a i :=
  exchange_sort_sorted (fun (d : Nat → Nat → α) m => d m i)
    (fun j k d => f_median_exchange i j k d) n
    (fun j k d _ => f_median_exchange_column i j k d) d a b hab hb

theorem f_median_sort_permutation (n : Nat) (d : Nat → Nat → α) (i : Nat) :
    ∃ π : Equiv.Perm Nat, (∀ k, n ≤ k → π k = k) ∧
      (fun m => f_median_sort n d i m i) = (fun m => d m i) ∘ π :=
  exchange_sort_perm (fun (d : Nat → Nat → α) m => d m i)
    (fun j k d => f_median_exchange i j k d) n
    (fun j k d _ _ => by
      have h := f_median_exchange_column i j k d
      by_cases c : (fun m => d m i) j < (fun m => d m i) k
      · right; rw [if_pos c] at h; exact h
      · left; rw [if_neg c] at h; exact h) d

theorem f_median_sort_elem (n : Nat) (d : Nat → Nat → α) (i m : Nat) (hm : m < n) :
    ∃ j, j < n ∧ f_median_sort n d i m i = d j i := by
  obtain ⟨π, hfix, hv⟩ := f_median_sort_permutation n d i
  exact ⟨π m, perm_fix_lt π n hfix m hm, congrFun hv m⟩

theorem f_median_snd (F : FloatOps α) (n : Nat) (d : Nat → Nat → α) (i : Nat) :
    (f_median F n d i).2 = f_median_sort n d i := by
  unfold f_median
  by_cases h : n % 2 = 0
  · simp [h]
  · simp [h]

theorem f_median_odd (F : FloatOps α) (n : Nat) (d : Nat → Nat → α) (i : Nat)
    (h : n % 2 = 1) : (f_median F n d i).1 = f_median_sort n d i (n / 2) i := by
  unfold f_median
  simp [h]

theorem f_median_even (F : FloatOps α) (n : Nat) (d : Nat → Nat → α) (i : Nat)
    (h : n % 2 = 0) :
    (f_median F n d i).1 =
      (f_median_sort n d i (n / 2) i + f_median_sort n d i (n / 2 - 1) i) / 2 := by
  unfold f_median
  simp [h, FloatOps.div]

/-- C6: for at least one observation, `f_median` sorts column `i` of its buffer
into a descending permutation of the original column and returns the element at
index `n/2` when `n` is odd, and the average of the elements at indices `n/2`
and `n/2 - 1` when `n` is even. -/
theorem f_median_is_median (F : FloatOps α) (observation_number : Nat)
    (_hn : 1 ≤ observation_number) (data_copy : Nat → Nat → α) (i : Nat) :
    (∀ a b, a < b → b < observation_number →
        (f_median F observation_number data_copy i).2 b i ≤
          (f_median F observation_number data_copy i).2 a i) ∧
      ((List.range observation_number).map
          (fun k => (f_median F observation_number data_copy i).2 k i)).Perm
        ((List.range observation_number).map (fun k => data_copy k i)) ∧
      (observation_number % 2 = 1 →
        (f_median F observation_number data_copy i).1 =
          (f_median F observation_number data_copy i).2 (observation_number / 2) i) ∧
      (observation_number % 2 = 0 →
        (f_median F observation_number data_copy i).1 =
          ((f_median F observation_number data_copy i).2 (observation_number / 2) i +
            (f_median F observation_number data_copy i).2 (observation_number / 2 - 1) i) / 2) := by
  rw [f_median_snd]
  refine ⟨fun a b hab hb => f_median_sort_sorted observation_number data_copy i a b hab hb,
    ?_, f_median_odd F observation_number data_copy i,
    f_median_even F observation_number data_copy i⟩
  obtain ⟨π, hfix, hv⟩ := f_median_sort_permutation observation_number data_copy i
  have h := perm_map_range π observation_number hfix (fun k => data_copy k i)
  rw [← hv] at h
  exact h

omit [LinearOrderedField α] in
theorem main_data_copy_apply (n v : Nat) (data copy0 : Nat → Nat → α) (j c : Nat) :
    main_data_copy n v data copy0 j c = if j < n ∧ c < v then data j c else copy0 j c := by
  have h := forLoop_invariant 0 v
    (fun i c => forLoop 0 n (fun j c => setCell c j i (data j i)) c)
    (fun k t => ∀ j c, t j c = if j < n ∧ c < k then data j c else copy0 j c) copy0
    (Nat.zero_le v) (by intro j c; simp) ?_
  · exact h j c
  · intro i t _ _ ht
    have h2 := forLoop_invariant 0 n (fun j c => setCell c j i (data j i))
      (fun m u => ∀ j c, u j c =
        if (j < n ∧ c < i) ∨ (j < m ∧ c = i) then data j c else copy0 j c) t
      (Nat.zero_le n) (by intro j c; rw [ht j c]; simp) ?_
    · intro j c
      have h3 := h2 j c
      beta_reduce at h3 ⊢
      rw [h3]
      have e : ((j < n ∧ c < i) ∨ (j < n ∧ c = i)) ↔ (j < n ∧ c < i + 1) := by
        constructor
        · rintro (⟨h1, h3⟩ | ⟨h1, h3⟩)
          · exact ⟨h1, by omega⟩
          · exact ⟨h1, by omega⟩
        · rintro ⟨h1, h3⟩
          by_cases e2 : c = i
          · exact Or.inr ⟨h1, e2⟩
          · exact Or.inl ⟨h1, by omega⟩
      simp only [e]
    · intro m u _ hm hu j c
      by_cases e : j = m ∧ c = i
      · obtain ⟨e1, e2⟩ := e
        subst e1; subst e2
        simp [setCell]
      · simp only [setCell, if_neg e, hu j c]
        have e3 : ((j < n ∧ c < i) ∨ (j < m + 1 ∧ c = i)) ↔
            ((j < n ∧ c < i) ∨ (j < m ∧ c = i)) := by
          constructor
          · rintro (h1 | ⟨h1, h3⟩)
            · exact Or.inl h1
            · exact Or.inr ⟨by by_contra h4; exact e ⟨by omega, h3⟩, h3⟩
          · rintro (h1 | ⟨h1, h3⟩)
            · exact Or.inl h1
            · exact Or.inr ⟨by omega, h3⟩
        simp only [e3]

/-- C9: for at least one observation, the median `f_median` computes for
variable `i` on the copy that `main` builds of the matrix lies between
`f_minimum` and `f_maximum` of the same column of the matrix. -/
theorem f_minimum_le_f_median_le_f_maximum (F : FloatOps α)
    (observation_number variables_number : Nat) (hn : 1 ≤ observation_number)
    (data data_copy0 : Nat → Nat → α) (i : Nat) (hi : i < variables_number) :
    f_minimum observation_number data i ≤
        (f_median F observation_number
          (main_data_copy observation_number variables_number data data_copy0) i).1 ∧
      (f_median F observation_number
          (main_data_copy observation_number variables_number data data_copy0) i).1 ≤
        f_maximum observation_number data i := by
  have hel : ∀ m, m < observation_number →
      f_minimum observation_number data i ≤
          f_median_sort observation_number
            (main_data_copy observation_number variables_number data data_copy0) i m i ∧
        f_median_sort observation_number
            (main_data_copy observation_number variables_number data data_copy0) i m i ≤
          f_maximum observation_number data i := by
    intro m hm
    obtain ⟨j, hj, e⟩ := f_median_sort_elem observation_number
      (main_data_copy observation_number variables_number data data_copy0) i m hm
    rw [e, main_data_copy_apply, if_pos ⟨hj, hi⟩]
    exact ⟨f_minimum_le observation_number hn data i j hj,
      le_f_maximum observation_number hn data i j hj⟩
  rcases Nat.mod_two_eq_zero_or_one observation_number with h | h
  · rw [f_median_even F _ _ _ h]
    have h1 := hel (observation_number / 2) (by omega)
    have h2 := hel (observation_number / 2 - 1) (by omega)
    constructor
    · rw [le_div_iff₀ (by norm_num)]; linarith [h1.1, h2.1]
    · rw [div_le_iff₀ (by norm_num)]; linarith [h1.2, h2.2]
  · rw [f_median_odd F _ _ _ h]
    exact hel (observation_number / 2) (by omega)

end Median

/-! ## The scenario `A, B, C` by `X, Y` -/

section Scenario

theorem real_sqrt_exact : (opsOf Real.sqrt).ExactSqrt :=
  fun x hx => ⟨Real.sqrt_nonneg x, Real.mul_self_sqrt hx⟩

/-- Variable `X` of the scenario: minimum `1`, maximum `3`, mean `2`, median `2`. -/
theorem scenario_statistics (F : FloatOps ℚ) :
    f_minimum 3 (scenarioData ℚ) 0 = 1 ∧ f_maximum 3 (scenarioData ℚ) 0 = 3 ∧
      f_mean F 3 (scenarioData ℚ) 0 = 2 ∧ (f_median F 3 (scenarioData ℚ) 0).1 = 2 := by
  refine ⟨?_, ?_, ?_, ?_⟩
  · norm_num [f_minimum, forLoop, loopFrom, scenarioData]
  · norm_num [f_maximum, forLoop, loopFrom, scenarioData]
  · norm_num [f_mean, forLoop, loopFrom, scenarioData, FloatOps.div]
  · norm_num [f_median, f_median_sort, f_median_exchange, setCell, forLoop, loopFrom,
      scenarioData]

theorem scenario_sd_ne_zero :
    f_standard_deviation (opsOf Real.sqrt) 3 (scenarioStats ℝ).data
      (fun _ => f_mean (opsOf Real.sqrt) 3 (scenarioStats ℝ).data 0) 0 ≠ 0 := by
  have h : f_standard_deviation (opsOf Real.sqrt) 3 (scenarioStats ℝ).data
      (fun _ => f_mean (opsOf Real.sqrt) 3 (scenarioStats ℝ).data 0) 0 = Real.sqrt (2 / 3) :=
    scenario_standard_deviation (opsOf Real.sqrt)
  rw [h]
  exact Real.sqrt_ne_zero'.mpr (by norm_num)

theorem scenario_population_sd_ne_zero :
    (opsOf Real.sqrt).sqrt ((∑ j in Finset.range 3,
      ((scenarioStats ℝ).data j 0 - (∑ k in Finset.range 3, (scenarioStats ℝ).data k 0) /
        ((3 : ℕ) : ℝ)) ^ 2) / ((3 : ℕ) : ℝ)) ≠ 0 := by
  have h := scenario_sd_ne_zero
  rw [f_standard_deviation_eq _ 3 (by norm_num), f_mean_eq _ 3 (by norm_num)] at h
  exact h

theorem main_statistics_standardizes_witness :
    (opsOf Real.sqrt).ExactSqrt ∧ 1 ≤ 3 ∧ 0 < 2 ∧
      (opsOf Real.sqrt).sqrt ((∑ j in Finset.range 3,
        ((scenarioStats ℝ).data j 0 - (∑ k in Finset.range 3, (scenarioStats ℝ).data k 0) /
          ((3 : ℕ) : ℝ)) ^ 2) / ((3 : ℕ) : ℝ)) ≠ 0 ∧
      (∑ j in Finset.range 3,
        (main_statistics (opsOf Real.sqrt) 3 2 0 (scenarioStats ℝ)).data j 0) /
        ((3 : ℕ) : ℝ) = 0 ∧
      (opsOf Real.sqrt).sqrt ((∑ j in Finset.range 3,
        ((main_statistics (opsOf Real.sqrt) 3 2 0 (scenarioStats ℝ)).data j 0 -
          (∑ k in Finset.range 3,
            (main_statistics (opsOf Real.sqrt) 3 2 0 (scenarioStats ℝ)).data k 0) /
            ((3 : ℕ) : ℝ)) ^ 2) / ((3 : ℕ) : ℝ)) = 1 :=
  ⟨real_sqrt_exact, by norm_num, by norm_num, scenario_population_sd_ne_zero,
    main_statistics_standardizes (opsOf Real.sqrt) real_sqrt_exact 3 2 (by norm_num) 0
      (scenarioStats ℝ) 0 (by norm_num) scenario_population_sd_ne_zero⟩

theorem main_variance_eq_sd_squared_witness :
    0 < 2 ∧
      (main_statistics (opsOf Real.sqrt) 3 2 0 (scenarioStats ℝ)).var_result 0 =
        (main_statistics (opsOf Real.sqrt) 3 2 0 (scenarioStats ℝ)).sd_result 0 ^ 2 :=
  ⟨by norm_num,
    main_variance_eq_sd_squared (opsOf Real.sqrt) 3 2 0 (scenarioStats ℝ) 0 (by norm_num)⟩

theorem f_median_is_median_witness :
    1 ≤ 3 ∧ 3 % 2 = 1 ∧
      (f_median (opsOf Real.sqrt) 3 (scenarioData ℝ) 0).1 =
        (f_median (opsOf Real.sqrt) 3 (scenarioData ℝ) 0).2 (3 / 2) 0 :=
  ⟨by norm_num, by norm_num,
    (f_median_is_median (opsOf Real.sqrt) 3 (by norm_num) (scenarioData ℝ) 0).2.2.1
      (by norm_num)⟩

theorem f_minimum_le_f_median_le_f_maximum_witness :
    1 ≤ 3 ∧ 1 < 2 ∧
      f_minimum 3 (scenarioData ℝ) 1 ≤
        (f_median (opsOf Real.sqrt) 3
          (main_data_copy 3 2 (scenarioData ℝ) (fun _ _ => 0)) 1).1 ∧
      (f_median (opsOf Real.sqrt) 3
          (main_data_copy 3 2 (scenarioData ℝ) (fun _ _ => 0)) 1).1 ≤
        f_maximum 3 (scenarioData ℝ) 1 :=
  ⟨by norm_num, by norm_num,
    f_minimum_le_f_median_le_f_maximum (opsOf Real.sqrt) 3 2 (by norm_num) (scenarioData ℝ)
      (fun _ _ => 0) 1 (by norm_num)⟩

end Scenario

/-! ## More on loops and on the exchange sort -/

theorem loopFrom_succ {σ : Type} (body : Nat → σ → σ) :
    ∀ (c k : Nat) (s : σ), loopFrom body k (c + 1) s = body (k + c) (loopFrom body k c s) := by
  intro c
  induction c with
  | zero => intro k s; simp [loopFrom]
  | succ c ih =>
    intro k s
    have h := ih (k + 1) (body k s)
    have e : k + 1 + c = k + (c + 1) := by omega
    rw [e] at h
    rw [loopFrom, h]
    rfl

theorem forLoop_succ {σ : Type} (lo hi : Nat) (body : Nat → σ → σ) (s : σ) (h : lo ≤ hi) :
    forLoop lo (hi + 1) body s = body hi (forLoop lo hi body s) := by
  unfold forLoop
  have e : hi + 1 - lo = (hi - lo) + 1 := by omega
  rw [e, loopFrom_succ]
  have e2 : lo + (hi - lo) = hi := by omega
  rw [e2]

theorem exchange_sort_invariant {σ : Type} (step : Nat → Nat → σ → σ) (n : Nat)
    (P : σ → Prop) (hstep : ∀ i j s, i < j → j < n → P s → P (step i j s)) (s : σ) (h : P s) :
    P (forLoop 0 (n - 1) (fun i s => forLoop (i + 1) n (fun j s => step i j s) s) s) := by
  refine forLoop_invariant 0 (n - 1) (fun i s => forLoop (i + 1) n (fun j s => step i j s) s)
    (fun _ t => P t) s (Nat.zero_le _) h ?_
  intro i t _ hi hP
  refine forLoop_invariant (i + 1) n (fun j s => step i j s) (fun _ u => P u) t (by omega) hP ?_
  intro j u hj hjn hu
  exact hstep i j u (by omega) hjn hu

theorem exchange_sort_fixed {σ : Type} (step : Nat → Nat → σ → σ) (n : Nat) (s : σ)
    (h : ∀ i j, i < j → j < n → step i j s = s) :
    forLoop 0 (n - 1) (fun i s => forLoop (i + 1) n (fun j s => step i j s) s) s = s :=
  exchange_sort_invariant step n (fun t => t = s)
    (fun i j t hij hj ht => by rw [ht]; exact h i j hij hj) s rfl

/-! ## Ties in the ranking sort and the RANKING section -/

section Ties

variable {α : Type} [LinearOrderedField α]

/-- C11 fails: for the indices `1, 1, 2` with labels `A, B, C` the sort puts the
tied observation `B` before `A`, although `A` came first in the input. -/
theorem main_sort_not_stable :
    ¬ (∀ a b, a < b → b < 3 →
        rankingTie.ranking_index_result a = rankingTie.ranking_index_result b →
        ∀ p q, p < 3 → q < 3 →
          (main_sort 3 rankingTie).observation p = rankingTie.observation a →
          (main_sort 3 rankingTie).observation q = rankingTie.observation b → p < q) := by
  intro h
  have h1 : (main_sort 3 rankingTie).observation 2 = rankingTie.observation 0 := by
    norm_num [main_sort, forLoop, loopFrom, main_sort_exchange, setAt, rankingTie]
  have h2 : (main_sort 3 rankingTie).observation 1 = rankingTie.observation 1 := by
    norm_num [main_sort, forLoop, loopFrom, main_sort_exchange, setAt, rankingTie]
  have h3 := h 0 1 (by decide) (by decide) (by norm_num [rankingTie]) 2 1 (by decide)
    (by decide) h1 h2
  omega

/-- C11, amended: the ranking sort exchanges two entries only when the later
index is strictly greater; on an input whose indices are already in
non-increasing order it changes neither array, so tied observations keep their
input order there. -/
theorem main_sort_sorted_input_unchanged (observation_number : Nat) (r : Ranking α)
    (h : ∀ a b, a < b → b < observation_number →
      r.ranking_index_result b ≤ r.ranking_index_result a) :
    main_sort observation_number r = r := by
  refine exchange_sort_fixed main_sort_exchange observation_number r ?_
  intro i j hij hj
  unfold main_sort_exchange
  rw [if_neg (not_lt.mpr (h i j hij hj))]

theorem main_sort_sorted_input_unchanged_witness :
    (∀ a b, a < b → b < 3 →
        rankingSorted.ranking_index_result b ≤ rankingSorted.ranking_index_result a) ∧
      main_sort 3 rankingSorted = rankingSorted := by
  have h : ∀ a b, a < b → b < 3 →
      rankingSorted.ranking_index_result b ≤ rankingSorted.ranking_index_result a := by
    intro a b hab hb
    interval_cases b <;> interval_cases a <;> norm_num [rankingSorted]
  exact ⟨h, main_sort_sorted_input_unchanged 3 rankingSorted h⟩

end Ties

/-- When both array reads of the print loop see the counter before its
increment, the RANKING section lists position `p` with the entries at index
`p - 1`, for `p` from `1` to `observation_number`. -/
theorem main_print_reads_before_increment {α : Type} (observation_number : Nat)
    (r : Ranking α) :
    main_print false false observation_number r =
      (List.range observation_number).map
        (fun k => (k + 1, r.ranking_index_result k, r.observation k)) := by
  refine forLoop_invariant 0 observation_number _
    (fun k out => out = (List.range k).map
      (fun k => (k + 1, r.ranking_index_result k, r.observation k))) []
    (Nat.zero_le _) (by simp) ?_
  intro k out _ _ hout
  rw [hout, List.range_succ, List.map_append]
  simp

/-- C12: when the increment `++i` is evaluated before the two array reads of
the same argument list (arguments evaluated left to right), the RANKING section
for three observations lists the entries at indices `1, 2, 3`: index `0` is
never printed and index `3`, outside the arrays, is read. -/
theorem main_print_reads_after_increment {α : Type} (r : Ranking α) :
    main_print true true 3 r =
      [(1, r.ranking_index_result 1, r.observation 1),
        (2, r.ranking_index_result 2, r.observation 2),
        (3, r.ranking_index_result 3, r.observation 3)] := by
  simp [main_print, forLoop, loopFrom]

/-! ## The fill loop of `main` -/

theorem main_fill_apply {α : Type} (k0 : Int) (n v : Nat) (dd : Int → α)
    (data0 : Nat → Nat → α) :
    (main_fill k0 n v dd data0).2 = k0 + ((v * n : Nat) : Int) ∧
      ∀ j c, (main_fill k0 n v dd data0).1 j c =
        if j < n ∧ c < v then dd (k0 + ((c * n + j : Nat) : Int)) else data0 j c := by
  refine forLoop_invariant 0 v
    (fun i st => forLoop 0 n (fun j st => (setCell st.1 j i (dd st.2), st.2 + 1)) st)
    (fun k (st : (Nat → Nat → α) × Int) => st.2 = k0 + ((k * n : Nat) : Int) ∧
      ∀ j c, st.1 j c =
        if j < n ∧ c < k then dd (k0 + ((c * n + j : Nat) : Int)) else data0 j c)
    (data0, k0) (Nat.zero_le v) ⟨by simp, by intro j c; simp⟩ ?_
  intro i st _ _ hst
  obtain ⟨hk, hd⟩ := hst
  have h2 := forLoop_invariant 0 n (fun j st => (setCell st.1 j i (dd st.2), st.2 + 1))
    (fun m (u : (Nat → Nat → α) × Int) => u.2 = k0 + ((i * n + m : Nat) : Int) ∧
      ∀ j c, u.1 j c =
        if (j < n ∧ c < i) ∨ (j < m ∧ c = i) then dd (k0 + ((c * n + j : Nat) : Int))
        else data0 j c) st
    (Nat.zero_le n) ⟨by rw [hk]; simp, by intro j c; rw [hd j c]; simp⟩ ?_
  · obtain ⟨h3, h4⟩ := h2
    refine ⟨?_, ?_⟩
    · rw [h3, Nat.succ_mul]
    · intro j c
      rw [h4 j c]
      have e : ((j < n ∧ c < i) ∨ (j < n ∧ c = i)) ↔ (j < n ∧ c < i + 1) := by
        constructor
        · rintro (⟨h1, h5⟩ | ⟨h1, h5⟩)
          · exact ⟨h1, by omega⟩
          · exact ⟨h1, by omega⟩
        · rintro ⟨h1, h5⟩
          by_cases e2 : c = i
          · exact Or.inr ⟨h1, e2⟩
          · exact Or.inl ⟨h1, by omega⟩
      simp only [e]
  · intro m u _ hm hu
    obtain ⟨hu1, hu2⟩ := hu
    refine ⟨?_, ?_⟩
    · show u.2 + 1 = _
      rw [hu1]; push_cast; ring
    · intro j c
      show setCell u.1 m i (dd u.2) j c = _
      by_cases e : j = m ∧ c = i
      · obtain ⟨e1, e2⟩ := e
        subst e1; subst e2
        simp [setCell, hu1]
      · simp only [setCell, if_neg e, hu2 j c]
        have e3 : ((j < n ∧ c < i) ∨ (j < m + 1 ∧ c = i)) ↔
            ((j < n ∧ c < i) ∨ (j < m ∧ c = i)) := by
          constructor
          · rintro (h1 | ⟨h1, h3⟩)
            · exact Or.inl h1
            · exact Or.inr ⟨by by_contra h4; exact e ⟨by omega, h3⟩, h3⟩
          · rintro (h1 | ⟨h1, h3⟩)
            · exact Or.inl h1
            · exact Or.inr ⟨by omega, h3⟩
        simp only [e3]

/-- C13 fails: on the flat values `1, 10, 2, 20, 3, 15` for three observations
and two variables, with `k` starting at `0`, the cell `data[1][0]` is the flat
value at position `1` (`10`), not the one at position `1 * 2 + 0` (`2`), and
the first variable's column is not `1, 2, 3`. -/
theorem main_fill_not_row_major :
    ¬ (∀ j < 3, ∀ i < 2,
        (main_fill 0 3 2 scenarioFlat (fun _ _ => 0)).1 j i =
          scenarioFlat ((j * 2 + i : Nat) : Int)) ∧
      (List.range 3).map (fun j => (main_fill 0 3 2 scenarioFlat (fun _ _ => 0)).1 j 0) ≠
        [1, 2, 3] := by
  have h : (main_fill 0 3 2 scenarioFlat (fun _ _ => 0)).1 1 0 = 10 := by
    rw [(main_fill_apply 0 3 2 scenarioFlat (fun _ _ => 0)).2 1 0]
    norm_num [scenarioFlat]
  constructor
  · intro hall
    have h2 := hall 1 (by decide) 0 (by decide)
    have e : scenarioFlat ((1 * 2 + 0 : Nat) : Int) = 2 := by rfl
    rw [h, e] at h2
    norm_num at h2
  · intro hcol
    have h3 : (List.range 3).map
        (fun j => (main_fill 0 3 2 scenarioFlat (fun _ _ => 0)).1 j 0) =
        [(main_fill 0 3 2 scenarioFlat (fun _ _ => 0)).1 0 0,
          (main_fill 0 3 2 scenarioFlat (fun _ _ => 0)).1 1 0,
          (main_fill 0 3 2 scenarioFlat (fun _ _ => 0)).1 2 0] := by
      simp [List.range_succ]
    rw [h3, h] at hcol
    norm_num at hcol

/-- C13, amended: the flat buffer is laid out column by column (variable by
variable): with `k` starting at `0`, the cell `data[j][i]` built by the fill
loop is the flat value at position `i * observation_number + j`; for three
observations, two variables and the flat values `1, 10, 2, 20, 3, 15` the first
variable's column is `1, 10, 2`. -/
theorem main_fill_column_major {α : Type} (observation_number variables_number : Nat)
    (data_download : Int → α) (data0 : Nat → Nat → α) (j i : Nat)
    (hj : j < observation_number) (hi : i < variables_number) :
    (main_fill 0 observation_number variables_number data_download data0).1 j i =
        data_download ((i * observation_number + j : Nat) : Int) ∧
      (List.range 3).map (fun j => (main_fill 0 3 2 scenarioFlat (fun _ _ => 0)).1 j 0) =
        [1, 10, 2] := by
  constructor
  · rw [(main_fill_apply 0 observation_number variables_number data_download data0).2 j i,
      if_pos ⟨hj, hi⟩, zero_add]
  · simp only [(main_fill_apply 0 3 2 scenarioFlat (fun _ _ => 0)).2, List.range_succ,
      List.range_zero]
    norm_num [scenarioFlat]

theorem main_fill_column_major_witness :
    1 < 3 ∧ 0 < 2 ∧ (main_fill 0 3 2 scenarioFlat (fun _ _ => 0)).1 1 0 =
      scenarioFlat ((0 * 3 + 1 : Nat) : Int) :=
  ⟨by decide, by decide,
    (main_fill_column_major 3 2 scenarioFlat (fun _ _ => 0) 1 0 (by decide) (by decide)).1⟩

/-! ## Counting lines -/

theorem counter_loop_eq (rest : List Char) (no : Nat) :
    counter_loop rest no = no + rest.count newline := by
  induction rest generalizing no with
  | nil => simp [counter_loop]
  | cons c rest ih =>
    rw [counter_loop, ih]
    by_cases h : c = newline
    · subst h; simp; omega
    · have h2 : ¬ (c == newline) = true := by simpa using h
      simp [h, List.count_cons, h2]

theorem counter_nonempty (c : Char) (rest : List Char) :
    counter (c :: rest) = Except.ok (1 + rest.count newline) := by
  simp [counter, counter_loop_eq]

theorem counter_empty_iff (file : List Char) :
    counter file = Except.error ErrorKind.emptyFile ↔ file = [] := by
  cases file with
  | nil => simp [counter]
  | cons c rest => simp [counter]

/-- C14 fails: the data file with the two lines `1 2` and `3 4` holds four
numeric tokens, yet for two observations and two variables the count check
stops with DATA ERROR, because `counter` returns the number of lines (`2`). -/
theorem main_count_check_not_tokens :
    ¬ (main_count_check fourTokenFile 2 2 = Except.error ErrorKind.data ↔
        2 * 2 ≠ spec_token_count fourTokenFile) := by
  have h1 : main_count_check fourTokenFile 2 2 = Except.error ErrorKind.data := by
    simp [main_count_check, fourTokenFile, counter_nonempty, errhl_incorrect_data, newline]
  have h2 : spec_token_count fourTokenFile = 2 * 2 := by
    decide
  intro h
  exact (h.mp h1) h2.symm

/-- C14, amended: for a data file whose first character is not a newline, the
count check stops with DATA ERROR if and only if `observation_number *
variables_number` differs from one plus the number of newline characters of the
file (its number of lines, not its number of tokens). -/
theorem main_count_check_lines (c : Char) (rest : List Char)
    (observation_number variables_number : Nat) (hc : c ≠ newline) :
    main_count_check (c :: rest) observation_number variables_number =
        Except.error ErrorKind.data ↔
      observation_number * variables_number ≠ 1 + (c :: rest).count newline := by
  have h2 : ¬ (c == newline) = true := by simpa using hc
  have e : (c :: rest).count newline = rest.count newline := by
    simp [List.count_cons, h2]
  rw [e]
  unfold main_count_check
  rw [counter_nonempty]
  unfold errhl_incorrect_data
  by_cases h : observation_number * variables_number = 1 + rest.count newline
  · simp [h]
  · simp [h]

theorem main_count_check_lines_witness :
    ('1' ≠ newline) ∧
      (main_count_check fourTokenFile 2 2 = Except.error ErrorKind.data ↔
        2 * 2 ≠ 1 + fourTokenFile.count newline) :=
  ⟨by decide,
    main_count_check_lines '1' [' ', '2', newline, '3', ' ', '4'] 2 2 (by decide)⟩

/-- C15: for the file made of a newline followed by `A`, `counter` returns `1`,
although the file is not empty and holds one newline character (one plus the
number of newlines is `2`): the first character read is never tested for being
a newline. -/
theorem counter_leading_newline :
    counter leadingNewlineFile = Except.ok 1 ∧
      1 + leadingNewlineFile.count newline = 2 := by
  constructor
  · simp [leadingNewlineFile, counter_nonempty, newline]
  · simp [leadingNewlineFile, newline]

/-! ## What the statistics loop stores -/

section Stored

variable {α : Type} [LinearOrderedField α]

theorem main_statistics_succ (F : FloatOps α) (n k : Nat) (min_coeff : α) (s : Stats α) :
    main_statistics F n (k + 1) min_coeff s =
      main_variable F n min_coeff k (main_statistics F n k min_coeff s) :=
  forLoop_succ 0 k (fun i s => main_variable F n min_coeff i s) s (Nat.zero_le k)

theorem main_statistics_column_raw (F : FloatOps α) (n k : Nat) (min_coeff : α) (s : Stats α)
    (j : Nat) : (main_statistics F n k min_coeff s).data j k = s.data j k := by
  rw [main_statistics_data_apply]
  simp

theorem f_minimum_congr (n : Nat) (data data2 : Nat → Nat → α) (i : Nat)
    (h : ∀ j, data j i = data2 j i) : f_minimum n data i = f_minimum n data2 i := by
  unfold f_minimum
  simp only [h]

theorem f_maximum_congr (n : Nat) (data data2 : Nat → Nat → α) (i : Nat)
    (h : ∀ j, data j i = data2 j i) : f_maximum n data i = f_maximum n data2 i := by
  unfold f_maximum
  simp only [h]

theorem main_statistics_stored (F : FloatOps α) (n v : Nat) (min_coeff : α) (s : Stats α)
    (i : Nat) (hi : i < v) :
    (main_statistics F n v min_coeff s).min_result i = f_minimum n s.data i ∧
      (main_statistics F n v min_coeff s).max_result i = f_maximum n s.data i ∧
      (main_statistics F n v min_coeff s).mean_result i = f_mean F n s.data i ∧
      (main_statistics F n v min_coeff s).sd_result i =
        f_standard_deviation F n s.data (fun _ => f_mean F n s.data i) i := by
  induction v with
  | zero => omega
  | succ k ih =>
    rw [main_statistics_succ]
    have hcol := main_statistics_column_raw F n k min_coeff s
    by_cases e : i = k
    · subst e
      refine ⟨?_, ?_, ?_, ?_⟩
      · simp only [main_variable, setAt, if_true]
        exact f_minimum_congr n _ _ i hcol
      · simp only [main_variable, setAt, if_true]
        exact f_maximum_congr n _ _ i hcol
      · simp only [main_variable, setAt, if_true]
        exact f_mean_congr F n _ _ i (fun j _ => hcol j)
      · simp only [main_variable, setAt, if_true]
        exact f_standard_deviation_congr F n _ _ _ _ i (fun j _ => hcol j)
          (by simp only [setAt, if_true]; exact f_mean_congr F n _ _ i (fun j _ => hcol j))
    · have h := ih (by omega)
      simp only [main_variable, setAt, if_neg e]
      exact h

theorem f_coeff_of_variation_nonneg (F : FloatOps α) (mean_result sd_result : Nat → α)
    (i : Nat) : 0 ≤ f_coeff_of_variation F mean_result sd_result i :=
  abs_nonneg _

theorem main_statistics_notes_zero (F : FloatOps α) (n v : Nat) (s : Stats α) :
    (main_statistics F n v 0 s).notes = s.notes := by
  induction v with
  | zero => rfl
  | succ k ih =>
    rw [main_statistics_succ]
    have h : ∀ t : Stats α, (main_variable F n 0 k t).notes = t.notes := by
      intro t
      have e : ∀ (a : Nat → α) (v : α), setAt a k v k = v := by
        intro a v; simp [setAt]
      simp only [main_variable, e]
      rw [if_neg (not_lt.mpr (f_coeff_of_variation_nonneg F _ _ _))]
    rw [h, ih]

theorem ExactSqrt_zero (F : FloatOps α) (hF : F.ExactSqrt) : F.sqrt 0 = 0 := by
  have h := ExactSqrt_mul_self F hF 0 (le_refl 0)
  simpa using h

/-- C16 fails: for two observations whose single variable is `5` in both, the
statistics and scaling loop stops with no error; it completes, with the zero
standard deviation stored and the quotient `0 / 0` returned by `f_scale`
stored in the cell. -/
theorem main_statistics_run_constant_column :
    (¬ ∃ e, main_statistics_run (opsOf Real.sqrt) 2 1 0 (statsOf (constantData ℝ)) =
        Except.error e) ∧
      (main_statistics (opsOf Real.sqrt) 2 1 0 (statsOf (constantData ℝ))).sd_result 0 = 0 ∧
      (main_statistics (opsOf Real.sqrt) 2 1 0 (statsOf (constantData ℝ))).data 0 0 =
        (opsOf Real.sqrt).divZero 0 := by
  have hsd : f_standard_deviation (opsOf Real.sqrt) 2 (constantData ℝ)
      (fun _ => f_mean (opsOf Real.sqrt) 2 (constantData ℝ) 0) 0 = 0 := by
    rw [f_standard_deviation_eq _ 2 (by norm_num), f_mean_eq _ 2 (by norm_num)]
    norm_num [Finset.sum_range_succ, constantData, opsOf]
  refine ⟨?_, ?_, ?_⟩
  · rintro ⟨e, h⟩
    simp [main_statistics_run] at h
  · rw [(main_statistics_stored _ 2 1 0 _ 0 (by norm_num)).2.2.2]
    exact hsd
  · rw [main_statistics_data_apply, if_pos ⟨by norm_num, by norm_num⟩]
    have hm : f_mean (opsOf Real.sqrt) 2 (statsOf (constantData ℝ)).data 0 = 5 := by
      rw [f_mean_eq _ 2 (by norm_num)]
      norm_num [Finset.sum_range_succ, constantData, statsOf]
    have hsd2 : f_standard_deviation (opsOf Real.sqrt) 2 (statsOf (constantData ℝ)).data
        (fun _ => f_mean (opsOf Real.sqrt) 2 (statsOf (constantData ℝ)).data 0) 0 = 0 := hsd
    rw [hsd2, hm]
    simp [FloatOps.div, statsOf, constantData]

/-- C16, amended: for every matrix containing a variable whose values are
identical in every observation, the standardization step signals no error for
that variable: the loop completes, and each cell of that variable holds the
value `f_scale` returned for it (computed from the original cell and the mean
and standard deviation stored for the variable). -/
theorem main_statistics_constant_column (F : FloatOps α)
    (observation_number variables_number : Nat) (min_coeff : α) (s : Stats α) (i : Nat)
    (hi : i < variables_number) (x : α)
    (_hconst : ∀ j, j < observation_number → s.data j i = x) :
    ∃ t, main_statistics_run F observation_number variables_number min_coeff s = Except.ok t ∧
      ∀ j, j < observation_number →
        t.data j i = f_scale F s.data t.mean_result t.sd_result i j := by
  refine ⟨main_statistics F observation_number variables_number min_coeff s, rfl, ?_⟩
  intro j hj
  have hst := main_statistics_stored F observation_number variables_number min_coeff s i hi
  rw [main_statistics_data_apply, if_pos ⟨hj, hi⟩]
  unfold f_scale
  rw [hst.2.2.1, hst.2.2.2]

theorem main_statistics_constant_column_witness :
    0 < 1 ∧ (∀ j, j < 2 → (statsOf (constantData ℝ)).data j 0 = 5) ∧
      ∃ t, main_statistics_run (opsOf Real.sqrt) 2 1 0 (statsOf (constantData ℝ)) =
          Except.ok t ∧
        ∀ j, j < 2 →
          t.data j 0 =
            f_scale (opsOf Real.sqrt) (statsOf (constantData ℝ)).data t.mean_result
              t.sd_result 0 j :=
  ⟨by norm_num, fun _ _ => rfl,
    main_statistics_constant_column (opsOf Real.sqrt) 2 1 0 (statsOf (constantData ℝ)) 0
      (by norm_num) 5 (fun _ _ => rfl)⟩

/-- C17: `f_coeff_of_variation` returns `|sd / mean| * 100` (for a non-zero
mean), which is never negative; so with the threshold `min_coeff = 0` the test
`coeff_of_var_result[i] < min_coeff` fails in every pass and the statistics
loop of `main` writes no note. -/
theorem main_statistics_no_note_at_zero (F : FloatOps α)
    (observation_number variables_number : Nat) (s : Stats α) :
    (∀ (mean_result sd_result : Nat → α) (i : Nat), mean_result i ≠ 0 →
        f_coeff_of_variation F mean_result sd_result i =
          |sd_result i / mean_result i| * 100) ∧
      (∀ (mean_result sd_result : Nat → α) (i : Nat),
        ¬ f_coeff_of_variation F mean_result sd_result i < 0) ∧
      (main_statistics F observation_number variables_number 0 s).notes = s.notes := by
  refine ⟨?_, ?_, main_statistics_notes_zero F observation_number variables_number s⟩
  · intro mean_result sd_result i hmean
    unfold f_coeff_of_variation
    rw [FloatOps.div_of_ne F _ _ hmean, abs_mul]
    congr 1
    exact abs_of_pos (by norm_num)
  · intro mean_result sd_result i
    exact not_lt.mpr (f_coeff_of_variation_nonneg F mean_result sd_result i)

theorem main_statistics_no_note_at_zero_witness :
    (2 : ℝ) ≠ 0 ∧
      f_coeff_of_variation (opsOf Real.sqrt) (fun _ => 2) (fun _ => 1) 0 =
        |(1 : ℝ) / 2| * 100 ∧
      (main_statistics (opsOf Real.sqrt) 3 2 0 (scenarioStats ℝ)).notes = [] :=
  ⟨by norm_num,
    (main_statistics_no_note_at_zero (opsOf Real.sqrt) 3 2 (scenarioStats ℝ)).1
      (fun _ => 2) (fun _ => 1) 0 (by norm_num),
    (main_statistics_no_note_at_zero (opsOf Real.sqrt) 3 2 (scenarioStats ℝ)).2.2⟩

end Stored

/-! ## Frame and repetition of the descriptive statistics -/

section Frame

variable {α : Type} [LinearOrderedField α]

theorem f_median_exchange_frame (i j k : Nat) (d : Nat → Nat → α) (m c : Nat) (hc : c ≠ i) :
    f_median_exchange i j k d m c = d m c := by
  unfold f_median_exchange
  by_cases h : d j i < d k i
  · simp [h, setCell, hc]
  · simp [h]

theorem f_median_sort_frame (n : Nat) (d : Nat → Nat → α) (i m c : Nat) (hc : c ≠ i) :
    f_median_sort n d i m c = d m c :=
  exchange_sort_invariant (fun j k d => f_median_exchange i j k d) n
    (fun t => ∀ m, t m c = d m c)
    (fun j k t _ _ ht m => by
      show f_median_exchange i j k t m c = d m c
      rw [f_median_exchange_frame i j k t m c hc]; exact ht m) d (fun _ => rfl) m

theorem f_median_sort_fixed (n : Nat) (d : Nat → Nat → α) (i : Nat)
    (h : ∀ a b, a < b → b < n → d b i ≤ d a i) : f_median_sort n d i = d :=
  exchange_sort_fixed (fun j k d => f_median_exchange i j k d) n d
    (fun j k hjk hk => by
      show f_median_exchange i j k d = d
      unfold f_median_exchange
      rw [if_neg (not_lt.mpr (h j k hjk hk))])

theorem f_median_sort_idempotent (n : Nat) (d : Nat → Nat → α) (i : Nat) :
    f_median_sort n (f_median_sort n d i) i = f_median_sort n d i :=
  f_median_sort_fixed n _ i (fun a b hab hb => f_median_sort_sorted n d i a b hab hb)

theorem f_median_idempotent (F : FloatOps α) (n : Nat) (d : Nat → Nat → α) (i : Nat) :
    f_median F n (f_median F n d i).2 i = f_median F n d i := by
  rw [f_median_snd]
  unfold f_median
  simp only [f_median_sort_idempotent]

theorem perm_symm_fix (π : Equiv.Perm Nat) (n : Nat) (hfix : ∀ k, n ≤ k → π k = k) :
    ∀ k, n ≤ k → π.symm k = k := by
  intro k hk
  rw [Equiv.symm_apply_eq]
  exact (hfix k hk).symm

theorem sum_range_perm (π : Equiv.Perm Nat) (n : Nat) (hfix : ∀ k, n ≤ k → π k = k)
    (f : Nat → α) : (∑ j in Finset.range n, f (π j)) = ∑ j in Finset.range n, f j := by
  refine Equiv.Perm.sum_comp π (Finset.range n) f ?_
  intro a ha
  simp only [Finset.coe_range, Set.mem_Iio]
  by_contra h
  exact ha (hfix a (by omega))

theorem f_minimum_perm (n : Nat) (hn : 1 ≤ n) (d d2 : Nat → Nat → α) (i : Nat)
    (π : Equiv.Perm Nat) (hfix : ∀ k, n ≤ k → π k = k) (h : ∀ m, d2 m i = d (π m) i) :
    f_minimum n d2 i = f_minimum n d i := by
  apply le_antisymm
  · obtain ⟨j, hj, e⟩ := f_minimum_mem n hn d i
    have h1 := f_minimum_le n hn d2 i (π.symm j)
      (perm_fix_lt π.symm n (perm_symm_fix π n hfix) j hj)
    rw [h (π.symm j), Equiv.apply_symm_apply, ← e] at h1
    exact h1
  · obtain ⟨j, hj, e⟩ := f_minimum_mem n hn d2 i
    rw [e, h j]
    exact f_minimum_le n hn d i (π j) (perm_fix_lt π n hfix j hj)

theorem f_maximum_perm (n : Nat) (hn : 1 ≤ n) (d d2 : Nat → Nat → α) (i : Nat)
    (π : Equiv.Perm Nat) (hfix : ∀ k, n ≤ k → π k = k) (h : ∀ m, d2 m i = d (π m) i) :
    f_maximum n d2 i = f_maximum n d i := by
  apply le_antisymm
  · obtain ⟨j, hj, e⟩ := f_maximum_mem n hn d2 i
    rw [e, h j]
    exact le_f_maximum n hn d i (π j) (perm_fix_lt π n hfix j hj)
  · obtain ⟨j, hj, e⟩ := f_maximum_mem n hn d i
    have h1 := le_f_maximum n hn d2 i (π.symm j)
      (perm_fix_lt π.symm n (perm_symm_fix π n hfix) j hj)
    rw [h (π.symm j), Equiv.apply_symm_apply, ← e] at h1
    exact h1

/-- C18: `f_median` changes only column `i` of the buffer it is given, and
permutes it; every other column is untouched.  As `main` passes it `data_copy`,
the loop stores for each variable the minimum, maximum, mean and standard
deviation of the original column of `data`, and the cell it finally writes at
an (observation, variable) position is `f_scale` of the original value at that
position. -/
theorem f_median_frame_and_raw_statistics (F : FloatOps α)
    (observation_number variables_number : Nat) (min_coeff : α) (s : Stats α) (i : Nat)
    (hi : i < variables_number) (buffer : Nat → Nat → α) :
    (∀ j c, c ≠ i → (f_median F observation_number buffer i).2 j c = buffer j c) ∧
      ((List.range observation_number).map
          (fun j => (f_median F observation_number buffer i).2 j i)).Perm
        ((List.range observation_number).map (fun j => buffer j i)) ∧
      (main_statistics F observation_number variables_number min_coeff s).min_result i =
        f_minimum observation_number s.data i ∧
      (main_statistics F observation_number variables_number min_coeff s).max_result i =
        f_maximum observation_number s.data i ∧
      (main_statistics F observation_number variables_number min_coeff s).mean_result i =
        f_mean F observation_number s.data i ∧
      (main_statistics F observation_number variables_number min_coeff s).sd_result i =
        f_standard_deviation F observation_number s.data
          (fun _ => f_mean F observation_number s.data i) i ∧
      ∀ j, j < observation_number →
        (main_statistics F observation_number variables_number min_coeff s).data j i =
          f_scale F s.data (fun _ => f_mean F observation_number s.data i)
            (fun _ => f_standard_deviation F observation_number s.data
              (fun _ => f_mean F observation_number s.data i) i) i j := by
  have hst := main_statistics_stored F observation_number variables_number min_coeff s i hi
  refine ⟨?_, ?_, hst.1, hst.2.1, hst.2.2.1, hst.2.2.2, ?_⟩
  · intro j c hc
    rw [f_median_snd]
    exact f_median_sort_frame observation_number buffer i j c hc
  · rw [f_median_snd]
    obtain ⟨π, hfix, hv⟩ := f_median_sort_permutation observation_number buffer i
    have h := perm_map_range π observation_number hfix (fun k => buffer k i)
    rw [← hv] at h
    exact h
  · intro j hj
    rw [main_statistics_data_apply, if_pos ⟨hj, hi⟩]
    rfl

theorem f_median_frame_and_raw_statistics_witness :
    0 < 2 ∧ 1 ≠ 0 ∧
      (f_median (opsOf Real.sqrt) 3 (scenarioData ℝ) 0).2 2 1 = scenarioData ℝ 2 1 ∧
      (main_statistics (opsOf Real.sqrt) 3 2 0 (scenarioStats ℝ)).mean_result 0 =
        f_mean (opsOf Real.sqrt) 3 (scenarioStats ℝ).data 0 :=
  ⟨by norm_num, by norm_num,
    (f_median_frame_and_raw_statistics (opsOf Real.sqrt) 3 2 0 (scenarioStats ℝ) 0
      (by norm_num) (scenarioData ℝ)).1 2 1 (by norm_num),
    (f_median_frame_and_raw_statistics (opsOf Real.sqrt) 3 2 0 (scenarioStats ℝ) 0
      (by norm_num) (scenarioData ℝ)).2.2.2.2.1⟩

/-- C19: a second call of `f_median` on the buffer as the first call left it
returns the same median and leaves the buffer as it is; `f_minimum`,
`f_maximum`, `f_mean` and `f_standard_deviation` only read their buffers, and
they return the same values even on the buffer that `f_median` has reordered. -/
theorem descriptive_statistics_idempotent (F : FloatOps α) (observation_number : Nat)
    (hn : 1 ≤ observation_number) (buffer : Nat → Nat → α) (mean_result : Nat → α) (i : Nat) :
    f_median F observation_number (f_median F observation_number buffer i).2 i =
        f_median F observation_number buffer i ∧
      f_minimum observation_number (f_median F observation_number buffer i).2 i =
        f_minimum observation_number buffer i ∧
      f_maximum observation_number (f_median F observation_number buffer i).2 i =
        f_maximum observation_number buffer i ∧
      f_mean F observation_number (f_median F observation_number buffer i).2 i =
        f_mean F observation_number buffer i ∧
      f_standard_deviation F observation_number (f_median F observation_number buffer i).2
          mean_result i =
        f_standard_deviation F observation_number buffer mean_result i := by
  obtain ⟨π, hfix, hv⟩ := f_median_sort_permutation observation_number buffer i
  have hcell : ∀ m, (f_median F observation_number buffer i).2 m i = buffer (π m) i := by
    intro m
    rw [f_median_snd]
    exact congrFun hv m
  refine ⟨f_median_idempotent F observation_number buffer i,
    f_minimum_perm observation_number hn buffer _ i π hfix hcell,
    f_maximum_perm observation_number hn buffer _ i π hfix hcell, ?_, ?_⟩
  · rw [f_mean_sum, f_mean_sum]
    congr 1
    rw [Finset.sum_congr rfl (fun j _ => hcell j)]
    exact sum_range_perm π observation_number hfix (fun j => buffer j i)
  · rw [f_standard_deviation_sum, f_standard_deviation_sum]
    congr 2
    rw [Finset.sum_congr rfl (fun j _ => by rw [hcell j])]
    exact sum_range_perm π observation_number hfix (fun j => (buffer j i - mean_result i) ^ 2)

theorem descriptive_statistics_idempotent_witness :
    1 ≤ 3 ∧
      f_median (opsOf Real.sqrt) 3 (f_median (opsOf Real.sqrt) 3 (scenarioData ℝ) 1).2 1 =
        f_median (opsOf Real.sqrt) 3 (scenarioData ℝ) 1 :=
  ⟨by norm_num,
    (descriptive_statistics_idempotent (opsOf Real.sqrt) 3 (by norm_num) (scenarioData ℝ)
      (fun _ => 0) 1).1⟩

/-- Started from an element of the array, the scan of `ranking_f_minimum`
returns the least element. -/
theorem ranking_f_minimum_least (n : Nat) (means : Nat → α) (k : Nat) (hk : k < n) :
    (∀ j, j < n → ranking_f_minimum (means k) n means ≤ means j) ∧
      ∃ j, j < n ∧ ranking_f_minimum (means k) n means = means j := by
  have h := scan_min 0 n means (means k) (Nat.zero_le n)
  refine ⟨fun j hj => h.2.1 j (Nat.zero_le j) hj, ?_⟩
  rcases h.2.2 with e | ⟨j, _, hj, e⟩
  · exact ⟨k, hk, e⟩
  · exact ⟨j, hj, e⟩

/-- C20: for the raw means `-1, 1`, `ranking_f_minimum` entered with `-3` in its
accumulator returns `-3` and `ranking_f_maximum` entered with `3` returns `3`;
neither is an element of the array, whose least element is `-1` and whose
greatest is `1`. -/
theorem ranking_extrema_stale_accumulator :
    ranking_f_minimum (-3) 2 (twoMeans α) = -3 ∧ ranking_f_maximum 3 2 (twoMeans α) = 3 ∧
      twoMeans α 0 = -1 ∧ twoMeans α 1 = 1 := by
  norm_num [ranking_f_minimum, ranking_f_maximum, forLoop, loopFrom, twoMeans]

end Frame

/-! ## Zero standard deviation and changes of unit -/

section Units

variable {α : Type} [LinearOrderedField α]

theorem loopFrom_congr {σ : Type} (body body2 : Nat → σ → σ) :
    ∀ (c k : Nat) (s : σ), (∀ m t, k ≤ m → m < k + c → body m t = body2 m t) →
      loopFrom body k c s = loopFrom body2 k c s := by
  intro c
  induction c with
  | zero => intro k s _; rfl
  | succ c ih =>
    intro k s h
    rw [loopFrom, loopFrom, h k s (le_refl k) (by omega)]
    exact ih (k + 1) (body2 k s) (fun m t hm hlt => h m t (by omega) (by omega))

theorem forLoop_congr {σ : Type} (lo hi : Nat) (body body2 : Nat → σ → σ) (s : σ)
    (h : ∀ m t, lo ≤ m → m < hi → body m t = body2 m t) :
    forLoop lo hi body s = forLoop lo hi body2 s :=
  loopFrom_congr body body2 (hi - lo) lo s (fun m t hm hlt => h m t hm (by omega))

theorem f_standard_deviation_nonneg (F : FloatOps α) (hF : F.ExactSqrt) (n : Nat) (hn : 1 ≤ n)
    (data : Nat → Nat → α) (m : Nat → α) (i : Nat) :
    0 ≤ f_standard_deviation F n data m i := by
  rw [f_standard_deviation_eq F n hn]
  exact (hF _ (div_nonneg (Finset.sum_nonneg (fun j _ => sq_nonneg _)) (Nat.cast_nonneg _))).1

theorem f_standard_deviation_mul_self (F : FloatOps α) (hF : F.ExactSqrt) (n : Nat)
    (hn : 1 ≤ n) (data : Nat → Nat → α) (m : Nat → α) (i : Nat) :
    f_standard_deviation F n data m i * f_standard_deviation F n data m i =
      (∑ j in Finset.range n, (data j i - m i) ^ 2) / (n : α) := by
  rw [f_standard_deviation_eq F n hn]
  exact (hF _ (div_nonneg (Finset.sum_nonneg (fun j _ => sq_nonneg _)) (Nat.cast_nonneg _))).2

theorem f_standard_deviation_zero_iff (F : FloatOps α) (hF : F.ExactSqrt) (n : Nat)
    (hn : 1 ≤ n) (data : Nat → Nat → α) (i : Nat) :
    f_standard_deviation F n data (fun _ => f_mean F n data i) i = 0 ↔
      ∀ j, j < n → ∀ k, k < n → data j i = data k i := by
  have hn0 : (n : α) ≠ 0 := cast_ne_zero_of_pos n hn
  have hmul := f_standard_deviation_mul_self F hF n hn data (fun _ => f_mean F n data i) i
  constructor
  · intro h
    rw [h, mul_zero] at hmul
    have hsum : (∑ j in Finset.range n, (data j i - f_mean F n data i) ^ 2) = 0 := by
      have h2 := hmul.symm
      rw [div_eq_zero_iff] at h2
      rcases h2 with h2 | h2
      · exact h2
      · exact absurd h2 hn0
    have hall := (Finset.sum_eq_zero_iff_of_nonneg (fun j _ => sq_nonneg _)).mp hsum
    have hm : ∀ j, j < n → data j i = f_mean F n data i := by
      intro j hj
      have h3 := hall j (Finset.mem_range.mpr hj)
      have h4 := pow_eq_zero_iff (two_ne_zero) |>.mp h3
      exact sub_eq_zero.mp h4
    intro j hj k hk
    rw [hm j hj, hm k hk]
  · intro h
    have hm : f_mean F n data i = data 0 i := by
      rw [f_mean_eq F n hn,
        Finset.sum_congr rfl (fun j hj => h j (Finset.mem_range.mp hj) 0 (by omega)),
        Finset.sum_const, Finset.card_range, nsmul_eq_mul, mul_div_cancel_left₀ _ hn0]
    rw [f_standard_deviation_eq F n hn]
    have e : ∀ j ∈ Finset.range n, (data j i - f_mean F n data i) ^ 2 = 0 := by
      intro j hj
      rw [hm, h j (Finset.mem_range.mp hj) 0 (by omega), sub_self]
      simp
    rw [Finset.sum_congr rfl e, Finset.sum_const_zero, zero_div]
    exact ExactSqrt_zero F hF

/-- C21, amended: in exact arithmetic (no rounding, `sqrt` the exact square
root), for at least one observation the standard deviation of a column computed
with the column's mean is non-negative and is `0` exactly when all values of
the column are equal; so the divisor `sd_result[i]` that the loop of `main`
hands to `f_scale` is zero exactly for the constant columns. -/
theorem f_standard_deviation_zero_iff_constant (F : FloatOps α) (hF : F.ExactSqrt)
    (observation_number variables_number : Nat) (hn : 1 ≤ observation_number)
    (min_coeff : α) (s : Stats α) (i : Nat) (hi : i < variables_number) :
    0 ≤ f_standard_deviation F observation_number s.data
        (fun _ => f_mean F observation_number s.data i) i ∧
      (f_standard_deviation F observation_number s.data
          (fun _ => f_mean F observation_number s.data i) i = 0 ↔
        ∀ j, j < observation_number → ∀ k, k < observation_number →
          s.data j i = s.data k i) ∧
      ((main_statistics F observation_number variables_number min_coeff s).sd_result i = 0 ↔
        ∀ j, j < observation_number → ∀ k, k < observation_number →
          s.data j i = s.data k i) := by
  refine ⟨f_standard_deviation_nonneg F hF observation_number hn s.data _ i,
    f_standard_deviation_zero_iff F hF observation_number hn s.data i, ?_⟩
  rw [(main_statistics_stored F observation_number variables_number min_coeff s i hi).2.2.2]
  exact f_standard_deviation_zero_iff F hF observation_number hn s.data i

theorem f_standard_deviation_zero_iff_constant_witness :
    (opsOf Real.sqrt).ExactSqrt ∧ 1 ≤ 2 ∧ 0 < 1 ∧
      (main_statistics (opsOf Real.sqrt) 2 1 0 (statsOf (constantData ℝ))).sd_result 0 = 0 :=
  ⟨real_sqrt_exact, by norm_num, by norm_num,
    (f_standard_deviation_zero_iff_constant (opsOf Real.sqrt) real_sqrt_exact 2 1
      (by norm_num) 0 (statsOf (constantData ℝ)) 0 (by norm_num)).2.2.mpr
      (fun _ _ _ _ => rfl)⟩

end Units

section Affine

variable {α : Type} [LinearOrderedField α]

theorem f_mean_affine (F : FloatOps α) (n : Nat) (hn : 1 ≤ n) (d d2 : Nat → Nat → α)
    (i : Nat) (a b : α) (h : ∀ j, j < n → d2 j i = a * d j i + b) :
    f_mean F n d2 i = a * f_mean F n d i + b := by
  have hn0 : (n : α) ≠ 0 := cast_ne_zero_of_pos n hn
  rw [f_mean_eq F n hn, f_mean_eq F n hn,
    Finset.sum_congr rfl (fun j hj => h j (Finset.mem_range.mp hj)),
    Finset.sum_add_distrib, ← Finset.mul_sum, Finset.sum_const, Finset.card_range,
    nsmul_eq_mul]
  field_simp
  ring

theorem f_standard_deviation_affine (F : FloatOps α) (hF : F.ExactSqrt) (n : Nat)
    (hn : 1 ≤ n) (d d2 : Nat → Nat → α) (i : Nat) (a b : α) (ha : 0 < a)
    (h : ∀ j, j < n → d2 j i = a * d j i + b) :
    f_standard_deviation F n d2 (fun _ => f_mean F n d2 i) i =
      a * f_standard_deviation F n d (fun _ => f_mean F n d i) i := by
  have hmul := f_standard_deviation_mul_self F hF n hn d (fun _ => f_mean F n d i) i
  have hnn := f_standard_deviation_nonneg F hF n hn d (fun _ => f_mean F n d i) i
  have hterm : ∀ j ∈ Finset.range n, (d2 j i - f_mean F n d2 i) ^ 2 =
      a ^ 2 * (d j i - f_mean F n d i) ^ 2 := by
    intro j hj
    rw [h j (Finset.mem_range.mp hj), f_mean_affine F n hn d d2 i a b h]
    ring
  have harg : (∑ j in Finset.range n, (d2 j i - f_mean F n d2 i) ^ 2) / (n : α) =
      (a * f_standard_deviation F n d (fun _ => f_mean F n d i) i) *
        (a * f_standard_deviation F n d (fun _ => f_mean F n d i) i) := by
    rw [Finset.sum_congr rfl hterm, ← Finset.mul_sum, mul_mul_mul_comm, hmul]
    ring
  rw [f_standard_deviation_eq F n hn, harg]
  exact ExactSqrt_mul_self F hF _ (mul_nonneg (le_of_lt ha) hnn)

theorem ranking_f_mean_congr (F : FloatOps α) (v : Nat) (d d2 : Nat → Nat → α) (j : Nat)
    (h : ∀ i, i < v → d2 j i = d j i) : ranking_f_mean F v d2 j = ranking_f_mean F v d j := by
  unfold ranking_f_mean
  congr 1
  exact forLoop_congr 0 v _ _ 0 (fun m t _ hm => by rw [h m hm])

theorem ranking_f_minimum_congr (m0 : α) (n : Nat) (means means2 : Nat → α)
    (h : ∀ i, i < n → means2 i = means i) :
    ranking_f_minimum m0 n means2 = ranking_f_minimum m0 n means := by
  unfold ranking_f_minimum
  exact forLoop_congr 0 n _ _ m0 (fun m t _ hm => by rw [h m hm])

theorem ranking_f_maximum_congr (m0 : α) (n : Nat) (means means2 : Nat → α)
    (h : ∀ i, i < n → means2 i = means i) :
    ranking_f_maximum m0 n means2 = ranking_f_maximum m0 n means := by
  unfold ranking_f_maximum
  exact forLoop_congr 0 n _ _ m0 (fun m t _ hm => by rw [h m hm])

theorem main_statistics_affine_cell (F : FloatOps α) (hF : F.ExactSqrt) (n v : Nat)
    (hn : 1 ≤ n) (min_coeff : α) (s s2 : Stats α) (i : Nat) (hi : i < v) (a b : α)
    (ha : 0 < a) (h : ∀ j, j < n → s2.data j i = a * s.data j i + b)
    (hsd : f_standard_deviation F n s.data (fun _ => f_mean F n s.data i) i ≠ 0)
    (j : Nat) (hj : j < n) :
    (main_statistics F n v min_coeff s2).data j i =
      (main_statistics F n v min_coeff s).data j i := by
  have hsd2 := f_standard_deviation_affine F hF n hn s.data s2.data i a b ha h
  have hne : a * f_standard_deviation F n s.data (fun _ => f_mean F n s.data i) i ≠ 0 :=
    mul_ne_zero (ne_of_gt ha) hsd
  rw [main_statistics_data_apply, main_statistics_data_apply, if_pos ⟨hj, hi⟩,
    if_pos ⟨hj, hi⟩, hsd2, FloatOps.div_of_ne F _ _ hne, FloatOps.div_of_ne F _ _ hsd,
    f_mean_affine F n hn s.data s2.data i a b h, h j hj]
  have ha0 : a ≠ 0 := ne_of_gt ha
  field_simp
  ring

/-- C22, amended: in exact arithmetic (no rounding, `sqrt` the exact square
root) standardization does not see a positive affine change of units.  When
every value of variable `i` is replaced by `a i * x + b i` with `a i > 0`, the
loop of `main` (which scales each column with its own mean and standard
deviation) writes the same cell at every position of a column with non-zero
standard deviation; when no column has zero standard deviation, the raw means
and the ranking indices of all observations are the same too. -/
theorem main_standardization_unit_invariant (F : FloatOps α) (hF : F.ExactSqrt)
    (observation_number variables_number : Nat) (hn : 1 ≤ observation_number)
    (min_coeff : α) (s s2 : Stats α) (a b : Nat → α)
    (ha : ∀ i, i < variables_number → 0 < a i)
    (hrel : ∀ j, j < observation_number → ∀ i, i < variables_number →
      s2.data j i = a i * s.data j i + b i) :
    (∀ i, i < variables_number →
        f_standard_deviation F observation_number s.data
          (fun _ => f_mean F observation_number s.data i) i ≠ 0 →
        ∀ j, j < observation_number →
          (main_statistics F observation_number variables_number min_coeff s2).data j i =
            (main_statistics F observation_number variables_number min_coeff s).data j i) ∧
      ((∀ i, i < variables_number →
          f_standard_deviation F observation_number s.data
            (fun _ => f_mean F observation_number s.data i) i ≠ 0) →
        ∀ (minimum0 maximum0 r0 r1 : Nat → α) (j : Nat), j < observation_number →
          main_ranking_mean F observation_number variables_number
              (main_statistics F observation_number variables_number min_coeff s2).data r0 j =
            main_ranking_mean F observation_number variables_number
              (main_statistics F observation_number variables_number min_coeff s).data r0 j ∧
          main_ranking_index F minimum0 maximum0 observation_number
              (main_ranking_mean F observation_number variables_number
                (main_statistics F observation_number variables_number min_coeff s2).data r0)
              r1 j =
            main_ranking_index F minimum0 maximum0 observation_number
              (main_ranking_mean F observation_number variables_number
                (main_statistics F observation_number variables_number min_coeff s).data r0)
              r1 j) := by
  have hcell : ∀ i, i < variables_number →
      f_standard_deviation F observation_number s.data
        (fun _ => f_mean F observation_number s.data i) i ≠ 0 →
      ∀ j, j < observation_number →
        (main_statistics F observation_number variables_number min_coeff s2).data j i =
          (main_statistics F observation_number variables_number min_coeff s).data j i :=
    fun i hi hsd j hj =>
      main_statistics_affine_cell F hF observation_number variables_number hn min_coeff s s2 i
        hi (a i) (b i) (ha i hi) (fun j hj => hrel j hj i hi) hsd j hj
  refine ⟨hcell, ?_⟩
  intro hall minimum0 maximum0 r0 r1 j hj
  have hmeans : ∀ j, j < observation_number →
      main_ranking_mean F observation_number variables_number
          (main_statistics F observation_number variables_number min_coeff s2).data r0 j =
        main_ranking_mean F observation_number variables_number
          (main_statistics F observation_number variables_number min_coeff s).data r0 j := by
    intro j hj
    rw [main_ranking_mean_apply F _ _ _ r0 j hj, main_ranking_mean_apply F _ _ _ r0 j hj]
    exact ranking_f_mean_congr F variables_number _ _ j
      (fun i hi => hcell i hi (hall i hi) j hj)
  refine ⟨hmeans j hj, ?_⟩
  rw [main_ranking_index_apply F minimum0 maximum0 observation_number _ r1 j hj,
    main_ranking_index_apply F minimum0 maximum0 observation_number _ r1 j hj,
    ranking_f_minimum_congr (minimum0 j) observation_number _ _ hmeans,
    ranking_f_maximum_congr (maximum0 j) observation_number _ _ hmeans]
  unfold ranking_f_index
  rw [hmeans j hj]

end Affine

theorem main_standardization_unit_invariant_witness :
    (opsOf Real.sqrt).ExactSqrt ∧ 1 ≤ 3 ∧
      (∀ i, i < 2 → (0 : ℝ) < (if i = 0 then 2 else 3)) ∧
      f_standard_deviation (opsOf Real.sqrt) 3 (scenarioStats ℝ).data
        (fun _ => f_mean (opsOf Real.sqrt) 3 (scenarioStats ℝ).data 0) 0 ≠ 0 ∧
      (main_statistics (opsOf Real.sqrt) 3 2 0 (statsOf (scenarioRescaled ℝ))).data 0 0 =
        (main_statistics (opsOf Real.sqrt) 3 2 0 (scenarioStats ℝ)).data 0 0 := by
  have ha : ∀ i, i < 2 → (0 : ℝ) < (if i = 0 then 2 else 3) := by
    intro i _
    split_ifs <;> norm_num
  exact ⟨real_sqrt_exact, by norm_num, ha, scenario_sd_ne_zero,
    (main_standardization_unit_invariant (opsOf Real.sqrt) real_sqrt_exact 3 2 (by norm_num) 0
      (scenarioStats ℝ) (statsOf (scenarioRescaled ℝ)) (fun i => if i = 0 then 2 else 3)
      (fun i => if i = 0 then 7 else -1) ha (fun _ _ _ _ => rfl)).1 0 (by norm_num)
      scenario_sd_ne_zero 0 (by norm_num)⟩

/-! ## The program's binary32 arithmetic -/

set_option maxRecDepth 100000

/-- The text `0.1` is read as `13421773 * 2^-27`, and the scenario entries are
read exactly. -/
theorem read32_examples :
    read32 1 10 = ⟨13421773, -27⟩ ∧ scenarioData32 0 1 = ⟨5, 1⟩ ∧
      scenarioRescaled32 0 1 = ⟨29, 0⟩ := by
  decide

/-- C21 fails in the program's arithmetic, in both directions.  For seven
observations all read from `0.1` (a constant column) the rounded sum makes the
mean one unit in the last place larger than the cells, `f_standard_deviation`
returns `2^-27`, not `0`, and `f_scale` divides by it and returns `-1`.  For the
two different values read from `1e-30` and `2e-30` the squared deviations are
lost when they are stored in the `float` accumulator, `f_standard_deviation`
returns `0`, and `f_scale` divides by zero. -/
theorem binary32_sd_zero_not_iff_constant :
    (∀ j k, tenthsData j 0 = tenthsData k 0) ∧
      f_mean_binary32 7 tenthsData 0 = some ⟨6710887, -26⟩ ∧
      f_standard_deviation_binary32 7 tenthsData (fun _ => ⟨6710887, -26⟩) 0 =
        some ⟨1, -27⟩ ∧
      f_scale_binary32 tenthsData (fun _ => ⟨6710887, -26⟩) (fun _ => ⟨1, -27⟩) 0 0 =
        some ⟨-1, 0⟩ ∧
      tinyData 0 0 ≠ tinyData 1 0 ∧
      f_mean_binary32 2 tinyData 0 = some ⟨996921, -119⟩ ∧
      f_standard_deviation_binary32 2 tinyData (fun _ => ⟨996921, -119⟩) 0 = some ⟨0, 0⟩ ∧
      f_scale_binary32 tinyData (fun _ => ⟨996921, -119⟩) (fun _ => ⟨0, 0⟩) 0 0 = none := by
  refine ⟨fun _ _ => rfl, ?_, ?_, ?_, ?_, ?_, ?_, ?_⟩
  · decide
  · decide
  · decide
  · decide
  · decide
  · decide
  · decide

/-- C22 fails in the program's arithmetic: for variable `Y` of the scenario
(`10, 20, 15`) `f_scale` returns `-10273905 * 2^-23` for the first observation,
and for the same variable in other units (`3 * Y - 1`, that is `29, 59, 44`) it
returns `-642119 * 2^-19`, one unit in the last place away. -/
theorem binary32_scale_not_unit_invariant :
    f_mean_binary32 3 scenarioData32 1 = some ⟨15, 0⟩ ∧
      f_standard_deviation_binary32 3 scenarioData32 (fun _ => ⟨15, 0⟩) 1 =
        some ⟨8561587, -21⟩ ∧
      f_scale_binary32 scenarioData32 (fun _ => ⟨15, 0⟩) (fun _ => ⟨8561587, -21⟩) 1 0 =
        some ⟨-10273905, -23⟩ ∧
      f_mean_binary32 3 scenarioRescaled32 1 = some ⟨11, 2⟩ ∧
      f_standard_deviation_binary32 3 scenarioRescaled32 (fun _ => ⟨11, 2⟩) 1 =
        some ⟨12842381, -20⟩ ∧
      f_scale_binary32 scenarioRescaled32 (fun _ => ⟨11, 2⟩) (fun _ => ⟨12842381, -20⟩) 1 0 =
        some ⟨-642119, -19⟩ ∧
      f_scale_binary32 scenarioRescaled32 (fun _ => ⟨11, 2⟩) (fun _ => ⟨12842381, -20⟩) 1 0 ≠
        f_scale_binary32 scenarioData32 (fun _ => ⟨15, 0⟩) (fun _ => ⟨8561587, -21⟩) 1 0 := by
  refine ⟨?_, ?_, ?_, ?_, ?_, ?_, ?_⟩
  · decide
  · decide
  · decide
  · decide
  · decide
  · decide
  · decide

end Analysis
